import Mathlib

/-!
Cadence history client and visibility sampling client.

A shallow embedding of

* `client/history/client.go`: the connection cache (`getThriftClient`), the
  redirect loop (`executeWithRedirect`), the part of each operation before the
  loop (`getHostForRequest` and the lookups of `DescribeHistoryHost`,
  `SyncShardStatus` and `SyncActivity`) and `createContext`;
* `service/history/visibilitySamplingClient.go`: the tenant-to-limiter map
  (`getRateLimiter`), the two gated writes and `getRequestPriority`.

Go maps are association lists read with `GoMap.get` and written with
`GoMap.set`.  Pointer identity of an object made by a constructor is a serial
number: the ordinal of the constructor call that made it.  The collaborators
that are interfaces in the source (the operation closure, the context, the
token bucket, the persistence manager, the dynamic configuration) are
functions of the number of calls made to them so far, so that their answers
may change from one call to the next.  Fields marked "ghost" are not in the
source: they record the calls made to a collaborator, oldest first.
-/

namespace Cadence

/-! ## Go maps with string keys -/

/-- A Go `map[string]V`. -/
abbrev GoMap (V : Type) := List (String × V)

/-- The read `v, ok := m[k]`: `some v` when `ok`, `none` otherwise. -/
def GoMap.get {V : Type} (m : GoMap V) (k : String) : Option V :=
  match m with
  | [] => none
  | (k', v) :: rest => if k' = k then some v else GoMap.get rest k

/-- The assignment `m[k] = v`. -/
def GoMap.set {V : Type} (m : GoMap V) (k : String) (v : V) : GoMap V :=
  (k, v) :: m.filter (fun p => !decide (p.1 = k))

/-! ## Errors -/

/-- Modelled from the spec: the deadline/cancellation error of the validity
check.  `common.IsValidContext` is absent from the sources; it returns the
context's `ctx.Err()`, which is `context.Canceled` or `context.DeadlineExceeded`. -/
inductive ContextError where
  | Canceled
  | DeadlineExceeded
deriving DecidableEq, Repr

/-- Modelled from the spec: a non-nil Go `error`, as far as the client tells
errors apart.  `ShardOwnershipLostError` is the Ownership-Lost Signal
`*h.ShardOwnershipLostError`, declared in a generated package that is absent
from the sources; it names the new owner "when known", and the source reads
the name as `*s.Owner`, so `Owner` is a pointer (`none` is the nil pointer). -/
inductive Error where
  | ShardOwnershipLostError (Owner : Option String)
  | contextError (e : ContextError)
  | other (msg : String)
deriving DecidableEq, Repr

/-- The type assertion `_, ok := err.(*h.ShardOwnershipLostError)`. -/
def Error.isShardOwnershipLost : Error → Bool
  | .ShardOwnershipLostError _ => true
  | _ => false

/-! ## The history client: connection cache -/

/-- Modelled from the spec: a Connection Handle, the
`historyserviceclient.Interface` value made by `historyserviceclient.New` on a
dispatcher of `rpcFactory.CreateDispatcherForOutbound` (both absent from the
sources).  `serial` is the ordinal of the factory call that made it (its
identity), `hostPort` the address it is bound to. -/
structure Handle where
  serial : Nat
  hostPort : String
deriving DecidableEq, Repr

/-- The mutable part of `clientImpl`, with two ghost logs. -/
structure clientImpl where
  /-- The field `thriftCache`. -/
  thriftCache : GoMap Handle
  /-- Ghost: the addresses `rpcFactory.CreateDispatcherForOutbound` was called with. -/
  factoryCalls : List String
  /-- Ghost: the addresses `getThriftClient` was called with. -/
  cacheLookups : List String
deriving DecidableEq, Repr

/-- The cache of `NewClient`: `make(map[string]historyserviceclient.Interface)`. -/
def NewClient : clientImpl :=
  { thriftCache := [], factoryCalls := [], cacheLookups := [] }

/-- The body of `if !ok { ... }` in `getThriftClient`: make a dispatcher and a
client for `hostPort` and store the client in the cache. -/
def createThriftClient (c : clientImpl) (hostPort : String) : Handle × clientImpl :=
  let client : Handle := { serial := c.factoryCalls.length, hostPort := hostPort }
  (client, { c with thriftCache := c.thriftCache.set hostPort client,
                    factoryCalls := c.factoryCalls ++ [hostPort] })

/-- `clientImpl.getThriftClient`, run without interleaving: the read under
`RLock`, and on a miss the second read and the creation under `Lock`. -/
def getThriftClient (c : clientImpl) (hostPort : String) : Handle × clientImpl :=
  let c := { c with cacheLookups := c.cacheLookups ++ [hostPort] }
  match c.thriftCache.get hostPort with
  | some client => (client, c)
  | none =>
    match c.thriftCache.get hostPort with
    | some client => (client, c)
    | none => createThriftClient c hostPort

/-! ## The history client: redirect loop -/

/-- A `context.Context` as `executeWithRedirect` sees it: `IsValid i` is what
`common.IsValidContext(ctx)` returns at the `i`-th check (from 0), `none` for nil. -/
structure Context where
  IsValid : Nat → Option ContextError

/-- The context of `context.Background()`: never cancelled, no deadline. -/
def Context.Background : Context := { IsValid := fun _ => none }

/-- The closure `op`: `op i client` is the error returned by the `i`-th
invocation (from 0) when it is made against `client`; `none` is nil. -/
abbrev Operation := Nat → Handle → Option Error

/-- How a call of `executeWithRedirect` ends: it returns `err`, or the
dereference `*s.Owner` of a nil pointer panics. -/
inductive Outcome where
  | returned (err : Option Error)
  | panicked
deriving DecidableEq, Repr

/-- A finished call of `executeWithRedirect`. -/
structure Run where
  outcome : Outcome
  /-- Ghost: the handles `op` was invoked against. -/
  calls : List Handle
  /-- The client state at the end. -/
  client : clientImpl
deriving DecidableEq, Repr

/-- The loop `redirectLoop` of `executeWithRedirect` from the head of iteration
`calls.length`, with at most `fuel` iterations: `none` when they do not suffice. -/
def redirectLoop (ctx : Context) (op : Operation) :
    Nat → clientImpl → Handle → List Handle → Option Run
  | 0, _, _, _ => none
  | fuel + 1, c, client, calls =>
    match ctx.IsValid calls.length with
    | some e => some { outcome := .returned (some (.contextError e)), calls := calls, client := c }
    | none =>
      match op calls.length client with
      | some (.ShardOwnershipLostError Owner) =>
        match Owner with
        | none => some { outcome := .panicked, calls := calls ++ [client], client := c }
        | some owner =>
          let (client', c') := getThriftClient c owner
          redirectLoop ctx op fuel c' client' (calls ++ [client])
      | err => some { outcome := .returned err, calls := calls ++ [client], client := c }

/-- `clientImpl.executeWithRedirect`; a nil `ctx` is `none`. -/
def executeWithRedirect (fuel : Nat) (c : clientImpl) (ctx : Option Context) (client : Handle)
    (op : Operation) : Option Run :=
  let ctx := match ctx with
    | none => Context.Background
    | some ctx => ctx
  redirectLoop ctx op fuel c client []

/-- The handle the loop of `executeWithRedirect` holds at call `i`, and the
client state then, when the loop starts with `client` on the state `c` and the
ownership-lost error of call `j` names the owner `A (j + 1)`: each redirect
replaces the handle by `c.getThriftClient(*s.Owner)`. -/
def heldAt (c : clientImpl) (client : Handle) (A : Nat → String) : Nat → Handle × clientImpl
  | 0 => (client, c)
  | i + 1 => getThriftClient (heldAt c client A i).2 (A (i + 1))

/-- The context the loop of `executeWithRedirect` checks: `context.Background()`
for a nil `ctx`. -/
def effectiveContext (ctx : Option Context) : Context :=
  match ctx with
  | none => Context.Background
  | some ctx => ctx

/-! ## The history client: the connection cache under concurrent callers

`getThriftClient` has two critical sections: the read between `RLock` and
`RUnlock`, and the second read with the creation between `Lock` and `Unlock`.
The lock makes each of them one atomic step; callers interleave between them. -/

/-- Where one caller of `getThriftClient(hostPort)` stands: before the read
under `RLock`, after that read missed, or returned with `client`. -/
inductive ThreadState where
  | start
  | missed
  | done (client : Handle)
deriving DecidableEq, Repr

/-- The next critical section of one caller of `getThriftClient(hostPort)`. -/
def stepThread (hostPort : String) (c : clientImpl) : ThreadState → ThreadState × clientImpl
  | .start =>
    let c := { c with cacheLookups := c.cacheLookups ++ [hostPort] }
    match c.thriftCache.get hostPort with
    | some client => (.done client, c)
    | none => (.missed, c)
  | .missed =>
    match c.thriftCache.get hostPort with
    | some client => (.done client, c)
    | none =>
      let (client, c') := createThriftClient c hostPort
      (.done client, c')
  | .done client => (.done client, c)

/-- The shared client state and the callers of `getThriftClient(hostPort)`. -/
structure CacheSystem where
  c : clientImpl
  threads : List ThreadState
deriving DecidableEq, Repr

/-- Caller `t` runs its next critical section. -/
def stepSystem (hostPort : String) (s : CacheSystem) (t : Nat) : CacheSystem :=
  match s.threads[t]? with
  | none => s
  | some st =>
    let (st', c') := stepThread hostPort s.c st
    { c := c', threads := s.threads.set t st' }

/-- The callers run in the order `schedule` gives. -/
def runSchedule (hostPort : String) (s : CacheSystem) (schedule : List Nat) : CacheSystem :=
  schedule.foldl (stepSystem hostPort) s

/-- `M` callers about to enter `getThriftClient(hostPort)`. -/
def firstRequests (c : clientImpl) (M : Nat) : CacheSystem :=
  { c := c, threads := List.replicate M .start }

/-- Every caller has returned. -/
def allDone (s : CacheSystem) : Bool :=
  s.threads.all (fun st => match st with
    | .done _ => true
    | _ => false)

/-- How far a caller has got: 0 before the first read, 1 after a miss, 2 when
it has returned. -/
def ThreadState.rank : ThreadState → Nat
  | .start => 0
  | .missed => 1
  | .done _ => 2

/-- The rank of caller `t`; 2 when there is no caller `t`. -/
def rankAt (s : CacheSystem) (t : Nat) : Nat :=
  match s.threads[t]? with
  | some st => st.rank
  | none => 2

/-- The invariant of the callers of `getThriftClient(a)` started on the client
state `c0`, which has no handle for `a`: either no handle is cached, the
factory has not been called and nobody has returned; or a handle `h` is
cached, the factory has been called once, for `a`, and whoever has returned
has returned `h`. -/
def CacheInv (c0 : clientImpl) (a : String) (s : CacheSystem) : Prop :=
  (s.c.thriftCache.get a = none ∧ s.c.factoryCalls = c0.factoryCalls ∧
    ∀ st ∈ s.threads, st = .start ∨ st = .missed) ∨
  (∃ h, s.c.thriftCache.get a = some h ∧ s.c.factoryCalls = c0.factoryCalls ++ [a] ∧
    ∀ st ∈ s.threads, st = .start ∨ st = .missed ∨ st = .done h)

/-- The client state after `getThriftClient` was called for `addrs`, in order. -/
def getThriftClients (c : clientImpl) (addrs : List String) : clientImpl :=
  addrs.foldl (fun c a => (getThriftClient c a).2) c

/-! ## The visibility sampling client -/

/-- The constant `numOfPriorityForOpen`. -/
def numOfPriorityForOpen : Int := 1

/-- The constant `numOfPriorityForClosed`. -/
def numOfPriorityForClosed : Int := 2

/-- Modelled from the spec: the Priority Token-Bucket made by
`common.NewFullPriorityTokenBucket(numOfPriority, qps, timeSource)`, whose
declaration is absent from the sources: the priority-level count and the quota
it was configured with, and `serial`, the ordinal of the constructor call on
its map (its identity). -/
structure PriorityTokenBucket where
  serial : Nat
  numOfPriority : Int
  qps : Int
deriving DecidableEq, Repr

/-- The type `domainToBucketMap`, with a ghost log. -/
structure domainToBucketMap where
  /-- The field `mappings`. -/
  mappings : GoMap PriorityTokenBucket
  /-- Ghost: the buckets `common.NewFullPriorityTokenBucket` made for this map. -/
  bucketsMade : List PriorityTokenBucket
deriving DecidableEq, Repr

/-- The function `newDomainToBucketMap`. -/
def newDomainToBucketMap : domainToBucketMap := { mappings := [], bucketsMade := [] }

/-- `domainToBucketMap.getRateLimiter`, run without interleaving. -/
def getRateLimiter (m : domainToBucketMap) (domain : String) (numOfPriority qps : Int) :
    PriorityTokenBucket × domainToBucketMap :=
  match m.mappings.get domain with
  | some rateLimiter => (rateLimiter, m)
  | none =>
    match m.mappings.get domain with
    | some rateLimiter => (rateLimiter, m)
    | none =>
      let rateLimiter : PriorityTokenBucket :=
        { serial := m.bucketsMade.length, numOfPriority := numOfPriority, qps := qps }
      (rateLimiter, { mappings := m.mappings.set domain rateLimiter,
                      bucketsMade := m.bucketsMade ++ [rateLimiter] })

/-- Modelled from the spec: the terminal statuses of a closed execution,
`workflow.WorkflowExecutionCloseStatus`, declared in a generated package that
is absent from the sources: the "completed" status, which the source names,
and the other terminal statuses. -/
inductive WorkflowExecutionCloseStatus where
  | Completed
  | Failed
  | Canceled
  | Terminated
  | ContinuedAsNew
  | TimedOut
deriving DecidableEq, Repr

/-- Modelled from the spec: the entity identifier `workflow.WorkflowExecution`
(declared in the absent generated package), read through its nil-safe getters. -/
structure WorkflowExecution where
  WorkflowId : Option String
  RunId : Option String
deriving DecidableEq, Repr

/-- The getter `GetWorkflowId`: the empty string for an unset field. -/
def WorkflowExecution.GetWorkflowId (e : WorkflowExecution) : String := e.WorkflowId.getD ""

/-- The getter `GetRunId`: the empty string for an unset field. -/
def WorkflowExecution.GetRunId (e : WorkflowExecution) : String := e.RunId.getD ""

/-- Modelled from the spec: the open-class write request
`persistence.RecordWorkflowExecutionStartedRequest` (its declaration is absent
from the sources), with the fields the client reads: tenant, entity
identifier and type. -/
structure RecordWorkflowExecutionStartedRequest where
  Domain : String
  Execution : WorkflowExecution
  WorkflowTypeName : String
deriving DecidableEq, Repr

/-- Modelled from the spec: the closed-class write request
`persistence.RecordWorkflowExecutionClosedRequest` (its declaration is absent
from the sources), with the fields the client reads: tenant, entity
identifier, type and terminal status. -/
structure RecordWorkflowExecutionClosedRequest where
  Domain : String
  Execution : WorkflowExecution
  WorkflowTypeName : String
  Status : WorkflowExecutionCloseStatus
deriving DecidableEq, Repr

/-- The function `getRequestPriority`. -/
def getRequestPriority (request : RecordWorkflowExecutionClosedRequest) : Int :=
  if request.Status = WorkflowExecutionCloseStatus.Completed then 1 else 0

/-- Modelled from the spec: the metric scopes of the two gated writes,
constants of the `metrics` package, which is absent from the sources. -/
inductive MetricScope where
  | PersistenceRecordWorkflowExecutionStartedScope
  | PersistenceRecordWorkflowExecutionClosedScope
deriving DecidableEq, Repr

/-- Modelled from the spec: the counter of sampling drops, a constant of the
`metrics` package, which is absent from the sources. -/
inductive MetricCounter where
  | PersistenceSampledCounter
deriving DecidableEq, Repr

/-- Ghost: one call `rateLimiter.GetToken(priority, count)`. -/
structure TokenRequest where
  rateLimiter : PriorityTokenBucket
  priority : Int
  count : Int
deriving DecidableEq, Repr

/-- Ghost: one call of a gated write of the downstream `persistence.VisibilityManager`. -/
inductive PersistenceCall where
  | Started (request : RecordWorkflowExecutionStartedRequest)
  | Closed (request : RecordWorkflowExecutionClosedRequest)
deriving DecidableEq, Repr

/-- Ghost: one log entry: the `Test flipr config` line with its two fields, or
the line of `logging.LogOpenWorkflowSampled` / `logging.LogClosedWorkflowSampled`
with domain, workflow id, run id and workflow type. -/
inductive LogEntry where
  | testConfig (testConfig : String) (testConfigVal : Int)
  | openWorkflowSampled (domain workflowID runID workflowType : String)
  | closedWorkflowSampled (domain workflowID runID workflowType : String)
deriving DecidableEq, Repr

/-- The collaborators of `visibilitySamplingClient`: the dynamic configuration,
the token buckets and the downstream manager.  `GetToken i` answers the `i`-th
`GetToken` call (from 0) and `RecordWorkflowExecutionStarted i`,
`RecordWorkflowExecutionClosed i` the `i`-th call of a gated downstream write.
A gated write reads its quota twice, for the log line and for
`getRateLimiter`; both reads give the value of the configuration function. -/
structure SamplingEnv where
  VisibilityOpenMaxQPS : String → Int
  VisibilityClosedMaxQPS : String → Int
  GetToken : Nat → PriorityTokenBucket → Int → Int → Bool
  RecordWorkflowExecutionStarted : Nat → RecordWorkflowExecutionStartedRequest → Option Error
  RecordWorkflowExecutionClosed : Nat → RecordWorkflowExecutionClosedRequest → Option Error

/-- The mutable part of `visibilitySamplingClient`, with four ghost logs. -/
structure visibilitySamplingClient where
  rateLimitersForOpen : domainToBucketMap
  rateLimitersForClosed : domainToBucketMap
  /-- Ghost: the `GetToken` calls. -/
  tokenRequests : List TokenRequest
  /-- Ghost: the gated writes forwarded to `p.persistence`. -/
  persistenceCalls : List PersistenceCall
  /-- Ghost: the `p.metricClient.IncCounter(scope, counter)` calls. -/
  counters : List (MetricScope × MetricCounter)
  /-- Ghost: the log entries written. -/
  logs : List LogEntry
deriving DecidableEq, Repr

/-- The function `NewVisibilitySamplingClient`. -/
def NewVisibilitySamplingClient : visibilitySamplingClient :=
  { rateLimitersForOpen := newDomainToBucketMap, rateLimitersForClosed := newDomainToBucketMap,
    tokenRequests := [], persistenceCalls := [], counters := [], logs := [] }

/-- `visibilitySamplingClient.RecordWorkflowExecutionStarted`: the returned
error (`none` is nil) and the state after the call. -/
def RecordWorkflowExecutionStarted (env : SamplingEnv) (p : visibilitySamplingClient)
    (request : RecordWorkflowExecutionStartedRequest) :
    Option Error × visibilitySamplingClient :=
  let domain := request.Domain
  let p := { p with logs := p.logs ++
    [LogEntry.testConfig "history.historyVisibilityOpenMaxQPS" (env.VisibilityOpenMaxQPS domain)] }
  let (rateLimiter, m) := getRateLimiter p.rateLimitersForOpen domain numOfPriorityForOpen
    (env.VisibilityOpenMaxQPS domain)
  let p := { p with rateLimitersForOpen := m }
  let ok := env.GetToken p.tokenRequests.length rateLimiter 0 1
  let p := { p with tokenRequests := p.tokenRequests ++
    [TokenRequest.mk rateLimiter 0 1] }
  if ok then
    (env.RecordWorkflowExecutionStarted p.persistenceCalls.length request,
     { p with persistenceCalls := p.persistenceCalls ++ [PersistenceCall.Started request] })
  else
    let p := { p with logs := p.logs ++ [LogEntry.openWorkflowSampled domain
      request.Execution.GetWorkflowId request.Execution.GetRunId request.WorkflowTypeName] }
    let p := { p with counters := p.counters ++
      [(MetricScope.PersistenceRecordWorkflowExecutionStartedScope,
        MetricCounter.PersistenceSampledCounter)] }
    (none, p)

/-- `visibilitySamplingClient.RecordWorkflowExecutionClosed`: the returned
error (`none` is nil) and the state after the call. -/
def RecordWorkflowExecutionClosed (env : SamplingEnv) (p : visibilitySamplingClient)
    (request : RecordWorkflowExecutionClosedRequest) :
    Option Error × visibilitySamplingClient :=
  let domain := request.Domain
  let priority := getRequestPriority request
  let p := { p with logs := p.logs ++
    [LogEntry.testConfig "history.historyVisibilityClosedMaxQPS" (env.VisibilityClosedMaxQPS domain)] }
  let (rateLimiter, m) := getRateLimiter p.rateLimitersForClosed domain numOfPriorityForClosed
    (env.VisibilityClosedMaxQPS domain)
  let p := { p with rateLimitersForClosed := m }
  let ok := env.GetToken p.tokenRequests.length rateLimiter priority 1
  let p := { p with tokenRequests := p.tokenRequests ++
    [TokenRequest.mk rateLimiter priority 1] }
  if ok then
    (env.RecordWorkflowExecutionClosed p.persistenceCalls.length request,
     { p with persistenceCalls := p.persistenceCalls ++ [PersistenceCall.Closed request] })
  else
    let p := { p with logs := p.logs ++ [LogEntry.closedWorkflowSampled domain
      request.Execution.GetWorkflowId request.Execution.GetRunId request.WorkflowTypeName] }
    let p := { p with counters := p.counters ++
      [(MetricScope.PersistenceRecordWorkflowExecutionClosedScope,
        MetricCounter.PersistenceSampledCounter)] }
    (none, p)

/-- The answer of the `GetToken` call the next `RecordWorkflowExecutionStarted`
makes for `request`: on the tenant's open-class limiter, at priority 0, for 1. -/
def openAdmission (env : SamplingEnv) (p : visibilitySamplingClient)
    (request : RecordWorkflowExecutionStartedRequest) : Bool :=
  env.GetToken p.tokenRequests.length
    (getRateLimiter p.rateLimitersForOpen request.Domain numOfPriorityForOpen
      (env.VisibilityOpenMaxQPS request.Domain)).1 0 1

/-- The answer of the `GetToken` call the next `RecordWorkflowExecutionClosed`
makes for `request`: on the tenant's closed-class limiter, at the priority of
`getRequestPriority`, for 1. -/
def closedAdmission (env : SamplingEnv) (p : visibilitySamplingClient)
    (request : RecordWorkflowExecutionClosedRequest) : Bool :=
  env.GetToken p.tokenRequests.length
    (getRateLimiter p.rateLimitersForClosed request.Domain numOfPriorityForClosed
      (env.VisibilityClosedMaxQPS request.Domain)).1 (getRequestPriority request) 1

/-- Consecutive calls of `RecordWorkflowExecutionStarted`, one per request: the
errors returned, in order, and the state after the last call. -/
def recordStartedAll (env : SamplingEnv) (p : visibilitySamplingClient) :
    List RecordWorkflowExecutionStartedRequest → List (Option Error) × visibilitySamplingClient
  | [] => ([], p)
  | request :: rest =>
    let (err, p') := RecordWorkflowExecutionStarted env p request
    let (errs, p'') := recordStartedAll env p' rest
    (err :: errs, p'')

/-- Every limiter of the closed-class map was made with `numOfPriorityForClosed` levels. -/
def closedLevelsOk (p : visibilitySamplingClient) : Bool :=
  p.rateLimitersForClosed.mappings.all
    (fun kv => decide (kv.2.numOfPriority = numOfPriorityForClosed))

/-! ## The history client: routing -/

/-- Go's conversion `string(v)` of an integer `v`: the UTF-8 encoding of the
code point `v`, and of U+FFFD when `v` is not a valid code point (negative, a
surrogate, or above U+10FFFF).  A Lean string is the sequence of code points
that the bytes of the Go string encode. -/
def stringOfInt (v : Int) : String :=
  if 0 ≤ v ∧ v.toNat.isValidChar then String.singleton (Char.ofNat v.toNat)
  else String.singleton (Char.ofNat 0xFFFD)

/-- Modelled from the spec: the Shard Key Resolver `common.WorkflowIDToHistoryShard`,
which is absent from the sources: "a stable hash of the key, reduced modulo
shard count".  `hash` is the hash function. -/
def WorkflowIDToHistoryShard (hash : String → Nat) (workflowID : String)
    (numberOfShards : Int) : Int :=
  (hash workflowID : Int) % numberOfShards

/-- Modelled from the spec: what the token codec recovers from an opaque task
token (`common.TaskToken`, absent from the sources): the routing key. -/
structure TaskToken where
  WorkflowID : String
deriving DecidableEq, Repr

/-- The configuration and the collaborators of the dispatcher: the field
`numberOfShards`, the hash function of `common.WorkflowIDToHistoryShard`, the
membership resolver (`Lookup i key` answers the `i`-th `c.resolver.Lookup`
call, from 0, with `host.GetAddress()` or an error) and
`c.tokenSerializer.Deserialize` on the bytes of a token. -/
structure RoutingEnv where
  numberOfShards : Int
  hash : String → Nat
  Lookup : Nat → String → Except Error String
  Deserialize : List Nat → Except Error TaskToken

/-- The clientImpl with the ghost logs of its routing collaborators. -/
structure Dispatcher where
  /-- The cache part of the client. -/
  c : clientImpl
  /-- Ghost: the keys `c.resolver.Lookup` was called with. -/
  lookupKeys : List String
  /-- Ghost: the workflow IDs `common.WorkflowIDToHistoryShard` was called with. -/
  hashedIDs : List String
deriving DecidableEq, Repr

/-- A dispatcher made by `NewClient`. -/
def NewDispatcher : Dispatcher := { c := NewClient, lookupKeys := [], hashedIDs := [] }

/-- `clientImpl.getHostForRequest`: the handle or the error of the lookup. -/
def getHostForRequest (env : RoutingEnv) (d : Dispatcher) (workflowID : String) :
    Except Error Handle × Dispatcher :=
  let key := WorkflowIDToHistoryShard env.hash workflowID env.numberOfShards
  let d := { d with hashedIDs := d.hashedIDs ++ [workflowID] }
  let host := env.Lookup d.lookupKeys.length (stringOfInt key)
  let d := { d with lookupKeys := d.lookupKeys ++ [stringOfInt key] }
  match host with
  | .error err => (.error err, d)
  | .ok address =>
    let (client, c') := getThriftClient d.c address
    (.ok client, { d with c := c' })

/-- The fields of `workflow.DescribeHistoryHostRequest` (declared in the absent
generated package) that `DescribeHistoryHost` reads, all three pointers. -/
structure DescribeHistoryHostRequest where
  HostAddress : Option String
  ShardIdForHost : Option Int
  ExecutionForHost : Option WorkflowExecution
deriving DecidableEq, Repr

/-- One call of an operation of the client, with what the operation reads of
its request to find the host: the workflow ID (`*request...WorkflowId`, or the
getter `GetWorkflowId()` for `ReplicateEvents` and `SyncActivity`), the bytes
of the task token, the shard ID (`request.GetShardId()`), or the request of
`DescribeHistoryHost`. -/
inductive Call where
  | StartWorkflowExecution (workflowID : String)
  | GetMutableState (workflowID : String)
  | DescribeHistoryHost (request : DescribeHistoryHostRequest)
  | DescribeMutableState (workflowID : String)
  | ResetStickyTaskList (workflowID : String)
  | DescribeWorkflowExecution (workflowID : String)
  | RecordDecisionTaskStarted (workflowID : String)
  | RecordActivityTaskStarted (workflowID : String)
  | RespondDecisionTaskCompleted (taskToken : List Nat)
  | RespondDecisionTaskFailed (taskToken : List Nat)
  | RespondActivityTaskCompleted (taskToken : List Nat)
  | RespondActivityTaskFailed (taskToken : List Nat)
  | RespondActivityTaskCanceled (taskToken : List Nat)
  | RecordActivityTaskHeartbeat (taskToken : List Nat)
  | RequestCancelWorkflowExecution (workflowID : String)
  | SignalWorkflowExecution (workflowID : String)
  | SignalWithStartWorkflowExecution (workflowID : String)
  | RemoveSignalMutableState (workflowID : String)
  | TerminateWorkflowExecution (workflowID : String)
  | ScheduleDecisionTask (workflowID : String)
  | RecordChildExecutionCompleted (workflowID : String)
  | ReplicateEvents (workflowID : String)
  | SyncShardStatus (shardID : Int)
  | SyncActivity (workflowID : String)
deriving DecidableEq, Repr

/-- How the part of an operation before `executeWithRedirect` ends: it returns
`err`, a nil pointer is dereferenced, or it has a handle to start the loop with. -/
inductive Resolution where
  | failed (err : Error) (d : Dispatcher)
  | panicked (d : Dispatcher)
  | resolved (client : Handle) (d : Dispatcher)
deriving DecidableEq, Repr

/-- The dispatcher at the end of the part before the loop. -/
def Resolution.dispatcher : Resolution → Dispatcher
  | .failed _ d => d
  | .panicked d => d
  | .resolved _ d => d

/-- The first lines of the operations that call `c.getHostForRequest` on a
workflow ID of the request, as `StartWorkflowExecution` does. -/
def resolveByWorkflowID (env : RoutingEnv) (d : Dispatcher) (workflowID : String) :
    Resolution :=
  match getHostForRequest env d workflowID with
  | (.error err, d') => .failed err d'
  | (.ok client, d') => .resolved client d'

/-- The first lines of the operations that deserialize a task token and call
`c.getHostForRequest(taskToken.WorkflowID)`, as `RespondDecisionTaskCompleted` does. -/
def resolveByTaskToken (env : RoutingEnv) (d : Dispatcher) (taskToken : List Nat) :
    Resolution :=
  match env.Deserialize taskToken with
  | .error err => .failed err d
  | .ok token => resolveByWorkflowID env d token.WorkflowID

/-- The lines `host, err := c.resolver.Lookup(key)`, `if err != nil { return err }`,
`client := c.getThriftClient(host.GetAddress())` of `DescribeHistoryHost`,
`SyncShardStatus` and `SyncActivity`. -/
def resolveByKey (env : RoutingEnv) (d : Dispatcher) (key : String) : Resolution :=
  let host := env.Lookup d.lookupKeys.length key
  let d := { d with lookupKeys := d.lookupKeys ++ [key] }
  match host with
  | .error err => .failed err d
  | .ok address =>
    let (client, c') := getThriftClient d.c address
    .resolved client { d with c := c' }

/-- The first lines of `DescribeHistoryHost`, up to `c.getThriftClient(hostAddr)`. -/
def resolveDescribeHistoryHost (env : RoutingEnv) (d : Dispatcher)
    (request : DescribeHistoryHostRequest) : Resolution :=
  match request.HostAddress with
  | some hostAddr =>
    let (client, c') := getThriftClient d.c hostAddr
    .resolved client { d with c := c' }
  | none =>
    match request.ShardIdForHost with
    | some shardID => resolveByKey env d (stringOfInt shardID)
    | none =>
      match request.ExecutionForHost with
      | none => .panicked d
      | some execution =>
        match execution.WorkflowId with
        | none => .panicked d
        | some workflowID =>
          let shardID := WorkflowIDToHistoryShard env.hash workflowID env.numberOfShards
          resolveByKey env { d with hashedIDs := d.hashedIDs ++ [workflowID] }
            (stringOfInt shardID)

/-- The part of each operation before `executeWithRedirect`. -/
def resolveHost (env : RoutingEnv) (d : Dispatcher) : Call → Resolution
  | .StartWorkflowExecution workflowID => resolveByWorkflowID env d workflowID
  | .GetMutableState workflowID => resolveByWorkflowID env d workflowID
  | .DescribeHistoryHost request => resolveDescribeHistoryHost env d request
  | .DescribeMutableState workflowID => resolveByWorkflowID env d workflowID
  | .ResetStickyTaskList workflowID => resolveByWorkflowID env d workflowID
  | .DescribeWorkflowExecution workflowID => resolveByWorkflowID env d workflowID
  | .RecordDecisionTaskStarted workflowID => resolveByWorkflowID env d workflowID
  | .RecordActivityTaskStarted workflowID => resolveByWorkflowID env d workflowID
  | .RespondDecisionTaskCompleted taskToken => resolveByTaskToken env d taskToken
  | .RespondDecisionTaskFailed taskToken => resolveByTaskToken env d taskToken
  | .RespondActivityTaskCompleted taskToken => resolveByTaskToken env d taskToken
  | .RespondActivityTaskFailed taskToken => resolveByTaskToken env d taskToken
  | .RespondActivityTaskCanceled taskToken => resolveByTaskToken env d taskToken
  | .RecordActivityTaskHeartbeat taskToken => resolveByTaskToken env d taskToken
  | .RequestCancelWorkflowExecution workflowID => resolveByWorkflowID env d workflowID
  | .SignalWorkflowExecution workflowID => resolveByWorkflowID env d workflowID
  | .SignalWithStartWorkflowExecution workflowID => resolveByWorkflowID env d workflowID
  | .RemoveSignalMutableState workflowID => resolveByWorkflowID env d workflowID
  | .TerminateWorkflowExecution workflowID => resolveByWorkflowID env d workflowID
  | .ScheduleDecisionTask workflowID => resolveByWorkflowID env d workflowID
  | .RecordChildExecutionCompleted workflowID => resolveByWorkflowID env d workflowID
  | .ReplicateEvents workflowID => resolveByWorkflowID env d workflowID
  | .SyncShardStatus shardID => resolveByKey env d (stringOfInt shardID)
  | .SyncActivity workflowID => resolveByKey env d workflowID

/-- The calls of the fifteen operations that pass a workflow ID of the request
to `c.getHostForRequest`, for the workflow ID `workflowID`. -/
def workflowIDCalls (workflowID : String) : List Call :=
  [.StartWorkflowExecution workflowID, .GetMutableState workflowID,
   .DescribeMutableState workflowID, .ResetStickyTaskList workflowID,
   .DescribeWorkflowExecution workflowID, .RecordDecisionTaskStarted workflowID,
   .RecordActivityTaskStarted workflowID, .RequestCancelWorkflowExecution workflowID,
   .SignalWorkflowExecution workflowID, .SignalWithStartWorkflowExecution workflowID,
   .RemoveSignalMutableState workflowID, .TerminateWorkflowExecution workflowID,
   .ScheduleDecisionTask workflowID, .RecordChildExecutionCompleted workflowID,
   .ReplicateEvents workflowID]

/-- The calls of the six operations that recover the workflow ID from a task
token, for the token `taskToken`. -/
def taskTokenCalls (taskToken : List Nat) : List Call :=
  [.RespondDecisionTaskCompleted taskToken, .RespondDecisionTaskFailed taskToken,
   .RespondActivityTaskCompleted taskToken, .RespondActivityTaskFailed taskToken,
   .RespondActivityTaskCanceled taskToken, .RecordActivityTaskHeartbeat taskToken]

/-- A finished operation of the client. -/
structure Dispatched where
  outcome : Outcome
  /-- Ghost: the handles the underlying call was made against. -/
  calls : List Handle
  /-- The dispatcher at the end. -/
  dispatcher : Dispatcher
deriving DecidableEq, Repr

/-- An operation of the client: the part before the loop, then
`c.executeWithRedirect(ctx, client, op)` with the closure `op` of the
operation, whose error is the error of the operation.  `none` when the loop
needs more than `fuel` iterations. -/
def dispatch (env : RoutingEnv) (fuel : Nat) (d : Dispatcher) (ctx : Option Context)
    (call : Call) (op : Operation) : Option Dispatched :=
  match resolveHost env d call with
  | .failed err d' => some { outcome := .returned (some err), calls := [], dispatcher := d' }
  | .panicked d' => some { outcome := .panicked, calls := [], dispatcher := d' }
  | .resolved client d' =>
    match executeWithRedirect fuel d'.c ctx client op with
    | none => none
    | some run =>
      some { outcome := run.outcome, calls := run.calls, dispatcher := { d' with c := run.client } }

/-- What the lookup of `key` at the dispatcher `d` makes of the part before the
loop: a failure with the resolver's error and the cache untouched, or the
cached handle of the address the resolver gave. -/
def lookedUp (env : RoutingEnv) (d : Dispatcher) (key : String) (r : Resolution) : Prop :=
  r.dispatcher.lookupKeys = d.lookupKeys ++ [key] ∧
  ((∃ err, env.Lookup d.lookupKeys.length key = .error err ∧
      r = .failed err { r.dispatcher with c := d.c }) ∨
   (∃ address, env.Lookup d.lookupKeys.length key = .ok address ∧
      r = .resolved (getThriftClient d.c address).1
        { r.dispatcher with c := (getThriftClient d.c address).2 }))

/-- The dispatcher after `getHostForRequest` was called for `workflowIDs`, in order. -/
def getHostsForRequests (env : RoutingEnv) (d : Dispatcher) (workflowIDs : List String) :
    Dispatcher :=
  workflowIDs.foldl (fun d workflowID => (getHostForRequest env d workflowID).2) d

/-! ## The history client: the timeout of a call -/

/-- What `createContext` reads of a `context.Context`: its deadline
(`ctx.Deadline()`) as a time in nanoseconds, `none` when no deadline is set. -/
structure DeadlineContext where
  Deadline : Option Int
deriving DecidableEq, Repr

/-- The deadline of `context.Background()`: none. -/
def backgroundContext : DeadlineContext := { Deadline := none }

/-- The standard library's `context.WithDeadline(parent, d)`: "a copy of the
parent context with the deadline adjusted to be no later than `d`"; when the
parent's deadline is before `d` the result has the parent's deadline. -/
def WithDeadline (parent : DeadlineContext) (d : Int) : DeadlineContext :=
  match parent.Deadline with
  | some cur => if cur < d then parent else { Deadline := some d }
  | none => { Deadline := some d }

/-- The standard library's `context.WithTimeout(parent, timeout)`, called at the
time `now`: `WithDeadline(parent, time.Now().Add(timeout))`. -/
def WithTimeout (now : Int) (parent : DeadlineContext) (timeout : Int) : DeadlineContext :=
  WithDeadline parent (now + timeout)

/-- The duration `time.Second`, in nanoseconds. -/
def Second : Int := 1000000000

/-- `clientImpl.createContext`, called at the time `now`; a nil parent is `none`. -/
def createContext (now : Int) (parent : Option DeadlineContext) : DeadlineContext :=
  let timeout := Second * 30
  match parent with
  | none => WithTimeout now backgroundContext timeout
  | some parent => WithTimeout now parent timeout

/-! ## The visibility sampling client: more calls -/

/-- The map after `getRateLimiter` was called with each `(domain, numOfPriority, qps)`
of `calls`, in order. -/
def getRateLimiters (m : domainToBucketMap) (calls : List (String × Int × Int)) :
    domainToBucketMap :=
  calls.foldl (fun m call => (getRateLimiter m call.1 call.2.1 call.2.2).2) m

/-! ## The SQL helpers: loading a schema -/

/-- The collaborators of `loadDatabaseSchema`: the file system, where
`ReadFile path` is what `ioutil.ReadFile(path)` returns, the content of the
file or the text of the error, and the database, where `Exec i query` is the
text of the error of the `i`-th `db.Exec` call (from 0), `none` for nil. -/
structure SchemaEnv where
  ReadFile : String → Except String String
  Exec : Nat → String → Option String

/-- A finished call of `loadDatabaseSchema`. -/
structure SchemaLoad where
  /-- The error returned; `none` is nil. -/
  err : Option Error
  /-- Ghost: the statements `db.Exec` was called with. -/
  executed : List String
  /-- Ghost: the errors assigned to the variable `err` of the loop body after a
  failed `db.Exec`. -/
  assigned : List Error
deriving DecidableEq, Repr

/-- The loop `for _, file := range fileNames` of `loadDatabaseSchema` and the
`return nil` after it.  The `err` of `content, err := ioutil.ReadFile(...)` is a
variable of the loop body: the assignment `err = fmt.Errorf(...)` after a
failed `db.Exec` changes that variable, which nothing reads afterwards, and the
loop goes on with the next file. -/
def loadSchemaFiles (env : SchemaEnv) (dir : String) :
    List String → List String → List Error → SchemaLoad
  | [], executed, assigned => { err := none, executed := executed, assigned := assigned }
  | file :: rest, executed, assigned =>
    match env.ReadFile (dir ++ "/" ++ file) with
    | .error e =>
      { err := some (.other ("error reading contents of file " ++ file ++ ":" ++ e)),
        executed := executed, assigned := assigned }
    | .ok content =>
      match env.Exec executed.length content with
      | some e =>
        loadSchemaFiles env dir rest (executed ++ [content])
          (assigned ++ [.other ("error loading schema from " ++ file ++ ": " ++ e)])
      | none => loadSchemaFiles env dir rest (executed ++ [content]) assigned

/-- The function `loadDatabaseSchema`, on a database that has executed nothing
yet; the parameter `override` is not used by the source. -/
def loadDatabaseSchema (env : SchemaEnv) (dir : String) (fileNames : List String)
    (_override : Bool) : SchemaLoad :=
  loadSchemaFiles env dir fileNames [] []

/-! ## Sample inputs -/

/-- Three host addresses: `A 0`, `A 1` and, for every larger index, `A 2`. -/
def sampleOwners : Nat → String :=
  fun i => if i = 0 then "hostA:7934" else if i = 1 then "hostB:7934" else "hostC:7934"

/-- A client whose cache holds one handle, for `hostA:7934`. -/
def sampleClient : clientImpl := (getThriftClient NewClient "hostA:7934").2

/-- The handle cached by `sampleClient`. -/
def sampleHandle : Handle := { serial := 0, hostPort := "hostA:7934" }

/-- An operation that is redirected twice, to `hostB:7934` and `hostC:7934`,
and then succeeds. -/
def sampleRedirectOp : Operation :=
  fun i _ => if i < 2 then some (.ShardOwnershipLostError (some (sampleOwners (i + 1)))) else none

/-- An operation that is redirected once, to `hostB:7934`, and then fails with
an error that is not ownership-lost. -/
def sampleFailingOp : Operation :=
  fun i _ => if i < 1 then some (.ShardOwnershipLostError (some "hostB:7934"))
    else some (.other "EntityNotExistsError")

/-- A callee that answers by the host called, at every call: `hostA:7934` names
`hostB:7934` as the owner, `hostB:7934` names `hostC:7934`, and every other host
succeeds. -/
def sampleHostOp : Operation :=
  fun _ h =>
    if h.hostPort = "hostA:7934" then some (.ShardOwnershipLostError (some "hostB:7934"))
    else if h.hostPort = "hostB:7934" then some (.ShardOwnershipLostError (some "hostC:7934"))
    else none

/-- An operation that every host answers with a redirect to `hostB:7934`. -/
def sampleBouncingOp : Operation :=
  fun _ _ => some (.ShardOwnershipLostError (some "hostB:7934"))

/-- A context whose deadline has already passed. -/
def sampleExpiredContext : Context := { IsValid := fun _ => some .DeadlineExceeded }

/-- A context that is valid at the first check and expired from the second on. -/
def sampleExpiringContext : Context :=
  { IsValid := fun i => if i = 0 then none else some .DeadlineExceeded }

/-- A limiter that grants the token at every even call (the first, the third,
...) and denies it at every odd one; the downstream writes succeed. -/
def sampleSamplingEnv : SamplingEnv :=
  { VisibilityOpenMaxQPS := fun _ => 300
    VisibilityClosedMaxQPS := fun _ => 300
    GetToken := fun i _ _ _ => decide (i % 2 = 0)
    RecordWorkflowExecutionStarted := fun _ _ => none
    RecordWorkflowExecutionClosed := fun _ _ => none }

/-- A limiter that looks at what it is asked: it grants one token at priority 0
at every even call and denies every other request, also every request for
more than one token; the downstream writes succeed. -/
def sampleStrictEnv : SamplingEnv :=
  { VisibilityOpenMaxQPS := fun _ => 300
    VisibilityClosedMaxQPS := fun _ => 300
    GetToken := fun i _ priority count => decide (priority = 0 ∧ count = 1 ∧ i % 2 = 0)
    RecordWorkflowExecutionStarted := fun _ _ => none
    RecordWorkflowExecutionClosed := fun _ _ => none }

/-- An open-class write of the tenant `domainA`. -/
def sampleStarted (workflowID : String) : RecordWorkflowExecutionStartedRequest :=
  { Domain := "domainA"
    Execution := { WorkflowId := some workflowID, RunId := some "run-1" }
    WorkflowTypeName := "sampleWorkflow" }

/-- A closed-class write of the tenant `domainA` with the given status. -/
def sampleClosed (status : WorkflowExecutionCloseStatus) :
    RecordWorkflowExecutionClosedRequest :=
  { Domain := "domainA"
    Execution := { WorkflowId := some "wf-1", RunId := some "run-1" }
    WorkflowTypeName := "sampleWorkflow"
    Status := status }

/-- The sampling client after one open-class write: the next `GetToken` call
is the second, which `sampleSamplingEnv` denies. -/
def sampleSamplingClient : visibilitySamplingClient :=
  (RecordWorkflowExecutionStarted sampleSamplingEnv NewVisibilitySamplingClient
    (sampleStarted "wf-0")).2

/-- A cluster of 4 shards in which only shard 0 has a known owner, `hostA:7934`.
The hash of a workflow ID is its length, and every non-empty token carries the
workflow ID `wf-1`, whose shard is 0. -/
def sampleRoutingEnv : RoutingEnv :=
  { numberOfShards := 4
    hash := fun workflowID => workflowID.length
    Lookup := fun _ key =>
      if key = stringOfInt 0 then .ok "hostA:7934" else .error (.other "no hosts for key")
    Deserialize := fun bytes =>
      if bytes = [] then .error (.other "malformed token") else .ok { WorkflowID := "wf-1" } }

/-- An operation that succeeds at the first call. -/
def sampleOkOp : Operation := fun _ _ => none

/-- An operation whose callee lost the shard and does not name the new owner. -/
def sampleOwnerlessOp : Operation := fun _ _ => some (.ShardOwnershipLostError none)

/-- The dispatcher after one `StartWorkflowExecution` for `wf-1`. -/
def sampleDispatcher : Dispatcher :=
  { c := sampleClient, lookupKeys := [stringOfInt 0], hashedIDs := ["wf-1"] }

/-- A `DescribeHistoryHost` request that names the host. -/
def sampleDescribeByHost : DescribeHistoryHostRequest :=
  { HostAddress := some "hostB:7934", ShardIdForHost := some 3,
    ExecutionForHost := some { WorkflowId := some "wf-12", RunId := none } }

/-- A `DescribeHistoryHost` request that names no host, but a shard. -/
def sampleDescribeByShard (shardID : Int) : DescribeHistoryHostRequest :=
  { HostAddress := none, ShardIdForHost := some shardID,
    ExecutionForHost := some { WorkflowId := some "wf-12", RunId := none } }

/-- A `DescribeHistoryHost` request that names only an execution. -/
def sampleDescribeByExecution : DescribeHistoryHostRequest :=
  { HostAddress := none, ShardIdForHost := none,
    ExecutionForHost := some { WorkflowId := some "wf-1", RunId := none } }

/-- A schema directory with one readable file, `schema/schema.sql`, and a
database that rejects every statement. -/
def sampleSchemaEnv : SchemaEnv :=
  { ReadFile := fun path =>
      if path = "schema/schema.sql" then .ok "CREATE TABLE executions (shard_id INT)"
      else .error "no such file or directory"
    Exec := fun _ _ => some "Error 1050: Table executions already exists" }

/-! ## Lemmas on maps -/

theorem GoMap.get_filter_ne {V : Type} (m : GoMap V) (k k' : String) (h : k' ≠ k) :
    GoMap.get (m.filter (fun p => !decide (p.1 = k))) k' = GoMap.get m k' := by
  induction m with
  | nil => rfl
  | cons p rest ih =>
    obtain ⟨a, v⟩ := p
    by_cases ha : a = k
    · have hk : a ≠ k' := fun e => h (e.symm.trans ha)
      simp only [List.filter, ha, decide_True, Bool.not_true, GoMap.get]
      rw [if_neg (ha ▸ hk)]
      exact ih
    · simp only [List.filter, ha, decide_False, Bool.not_false, GoMap.get]
      by_cases hk : a = k'
      · simp only [hk, if_true]
      · simp only [hk, if_false]
        exact ih

theorem GoMap.get_set_self {V : Type} (m : GoMap V) (k : String) (v : V) :
    GoMap.get (m.set k v) k = some v := by
  simp [GoMap.set, GoMap.get]

theorem GoMap.get_set_ne {V : Type} (m : GoMap V) (k k' : String) (v : V) (h : k' ≠ k) :
    GoMap.get (m.set k v) k' = GoMap.get m k' := by
  have h' : k ≠ k' := fun e => h e.symm
  simp only [GoMap.set, GoMap.get, h', if_false]
  exact GoMap.get_filter_ne m k k' h

/-! ## Lemmas on the connection cache -/

theorem getThriftClient_cacheLookups (c : clientImpl) (a : String) :
    (getThriftClient c a).2.cacheLookups = c.cacheLookups ++ [a] := by
  unfold getThriftClient
  simp only
  cases h : GoMap.get c.thriftCache a <;> simp [createThriftClient]

theorem getThriftClient_hit (c : clientImpl) (a : String) (h : Handle)
    (hc : c.thriftCache.get a = some h) :
    getThriftClient c a = (h, { c with cacheLookups := c.cacheLookups ++ [a] }) := by
  unfold getThriftClient
  simp only [hc]

theorem getThriftClient_miss (c : clientImpl) (a : String)
    (hc : c.thriftCache.get a = none) :
    getThriftClient c a =
      ({ serial := c.factoryCalls.length, hostPort := a },
       { thriftCache := c.thriftCache.set a { serial := c.factoryCalls.length, hostPort := a },
         factoryCalls := c.factoryCalls ++ [a],
         cacheLookups := c.cacheLookups ++ [a] }) := by
  unfold getThriftClient
  simp only [hc, createThriftClient]

theorem getThriftClient_cached (c : clientImpl) (a : String) :
    (getThriftClient c a).2.thriftCache.get a = some (getThriftClient c a).1 := by
  cases hc : c.thriftCache.get a with
  | some h => rw [getThriftClient_hit c a h hc]; exact hc
  | none => rw [getThriftClient_miss c a hc]; exact GoMap.get_set_self _ _ _

theorem getThriftClient_other (c : clientImpl) (a b : String) (hb : b ≠ a) :
    (getThriftClient c a).2.thriftCache.get b = c.thriftCache.get b := by
  cases hc : c.thriftCache.get a with
  | some h => rw [getThriftClient_hit c a h hc]
  | none => rw [getThriftClient_miss c a hc]; exact GoMap.get_set_ne _ _ _ _ hb

theorem getThriftClient_keeps (c : clientImpl) (a b : String) (h : Handle)
    (hb : c.thriftCache.get b = some h) :
    (getThriftClient c a).2.thriftCache.get b = some h := by
  by_cases hab : b = a
  · subst hab
    rw [getThriftClient_hit c b h hb]; exact hb
  · rw [getThriftClient_other c a b hab]; exact hb

/-! ## Lemmas on the redirect loop -/

/-- One iteration whose validity check fails. -/
theorem redirectLoop_invalid (ctx : Context) (op : Operation) (fuel : Nat) (c : clientImpl)
    (client : Handle) (calls : List Handle) (e : ContextError)
    (hv : ctx.IsValid calls.length = some e) :
    redirectLoop ctx op (fuel + 1) c client calls =
      some { outcome := .returned (some (.contextError e)), calls := calls, client := c } := by
  simp only [redirectLoop, hv]

/-- One iteration that ends in a redirect. -/
theorem redirectLoop_redirect (ctx : Context) (op : Operation) (fuel : Nat) (c : clientImpl)
    (client : Handle) (calls : List Handle) (owner : String)
    (hv : ctx.IsValid calls.length = none)
    (hop : op calls.length client = some (.ShardOwnershipLostError (some owner))) :
    redirectLoop ctx op (fuel + 1) c client calls =
      redirectLoop ctx op fuel (getThriftClient c owner).2 (getThriftClient c owner).1
        (calls ++ [client]) := by
  simp only [redirectLoop, hv, hop]

/-- One iteration whose call returns nil or an error that is not ownership-lost. -/
theorem redirectLoop_final (ctx : Context) (op : Operation) (fuel : Nat) (c : clientImpl)
    (client : Handle) (calls : List Handle)
    (hv : ctx.IsValid calls.length = none)
    (hop : ∀ e, op calls.length client = some e → e.isShardOwnershipLost = false) :
    redirectLoop ctx op (fuel + 1) c client calls =
      some { outcome := .returned (op calls.length client), calls := calls ++ [client],
             client := c } := by
  cases h : op calls.length client with
  | none => simp only [redirectLoop, hv, h]
  | some e =>
    have he := hop e h
    cases e with
    | ShardOwnershipLostError o => simp [Error.isShardOwnershipLost] at he
    | contextError x => simp only [redirectLoop, hv, h]
    | other m => simp only [redirectLoop, hv, h]

/-- One iteration whose call returns an ownership-lost error with a nil owner. -/
theorem redirectLoop_nilOwner (ctx : Context) (op : Operation) (fuel : Nat) (c : clientImpl)
    (client : Handle) (calls : List Handle)
    (hv : ctx.IsValid calls.length = none)
    (hop : op calls.length client = some (.ShardOwnershipLostError none)) :
    redirectLoop ctx op (fuel + 1) c client calls =
      some { outcome := .panicked, calls := calls ++ [client], client := c } := by
  simp only [redirectLoop, hv, hop]

/-- What a finished run of the loop looks like: `n` redirects, each with one
cache lookup, then either a failed validity check or one last call. -/
theorem redirectLoop_spec (ctx : Context) (op : Operation) :
    ∀ (fuel : Nat) (c : clientImpl) (client : Handle) (calls : List Handle) (run : Run),
      redirectLoop ctx op fuel c client calls = some run →
      ∃ (rest : List Handle) (n : Nat), run.calls = calls ++ rest ∧
        run.client.cacheLookups.length = c.cacheLookups.length + n ∧
        (∀ i, i < n → ctx.IsValid (calls.length + i) = none ∧
          ∃ h owner, rest[i]? = some h ∧
            op (calls.length + i) h = some (.ShardOwnershipLostError (some owner))) ∧
        ((∃ ce, ctx.IsValid (calls.length + n) = some ce ∧ rest.length = n ∧
            run.outcome = .returned (some (.contextError ce))) ∨
         (ctx.IsValid (calls.length + n) = none ∧ rest.length = n + 1 ∧
           ∃ h, rest[n]? = some h ∧
            ((op (calls.length + n) h = some (.ShardOwnershipLostError none) ∧
                run.outcome = .panicked) ∨
             ((∀ e, op (calls.length + n) h = some e → e.isShardOwnershipLost = false) ∧
                run.outcome = .returned (op (calls.length + n) h))))) := by
  intro fuel
  induction fuel with
  | zero => intro c client calls run h; simp [redirectLoop] at h
  | succ fuel ih =>
    intro c client calls run h
    cases hv : ctx.IsValid calls.length with
    | some ce =>
      rw [redirectLoop_invalid ctx op fuel c client calls ce hv] at h
      cases h
      exact ⟨[], 0, by simp, by simp, by simp, Or.inl ⟨ce, by simpa using hv, rfl, rfl⟩⟩
    | none =>
      by_cases hlost : ∃ o, op calls.length client = some (.ShardOwnershipLostError o)
      · obtain ⟨o, hop⟩ := hlost
        cases o with
        | none =>
          rw [redirectLoop_nilOwner ctx op fuel c client calls hv hop] at h
          cases h
          exact ⟨[client], 0, rfl, by simp, by simp,
            Or.inr ⟨by simpa using hv, rfl, client, rfl, Or.inl ⟨by simpa using hop, rfl⟩⟩⟩
        | some owner =>
          rw [redirectLoop_redirect ctx op fuel c client calls owner hv hop] at h
          obtain ⟨rest, n, hcalls, hlook, hred, hfin⟩ := ih _ _ _ run h
          have hlen : (calls ++ [client]).length = calls.length + 1 := by simp
          refine ⟨client :: rest, n + 1, by simp [hcalls], ?_, ?_, ?_⟩
          · rw [hlook, getThriftClient_cacheLookups]; simp; omega
          · intro i hi
            cases i with
            | zero => exact ⟨by simpa using hv, client, owner, by simp, by simpa using hop⟩
            | succ i =>
              have := hred i (by omega)
              rw [hlen] at this
              have e1 : calls.length + 1 + i = calls.length + (i + 1) := by omega
              rw [e1] at this
              simpa using this
          · rw [hlen] at hfin
            have e1 : calls.length + 1 + n = calls.length + (n + 1) := by omega
            rw [e1] at hfin
            simpa using hfin
      · have hop : ∀ e, op calls.length client = some e → e.isShardOwnershipLost = false := by
          intro e he
          cases e with
          | ShardOwnershipLostError o => exact absurd ⟨o, he⟩ hlost
          | contextError x => rfl
          | other m => rfl
        rw [redirectLoop_final ctx op fuel c client calls hv hop] at h
        cases h
        exact ⟨[client], 0, rfl, by simp, by simp,
          Or.inr ⟨by simpa using hv, rfl, client, rfl, Or.inr ⟨by simpa using hop, rfl⟩⟩⟩

theorem executeWithRedirect_eq (fuel : Nat) (c : clientImpl) (ctx : Option Context)
    (client : Handle) (op : Operation) :
    executeWithRedirect fuel c ctx client op =
      redirectLoop (effectiveContext ctx) op fuel c client [] := by
  cases ctx <;> rfl

/-- A chain of `k` redirects through the addresses `A (calls.length + 1)`, ...,
`A (calls.length + k)` followed by a call that returns `res`, which is not
ownership-lost. -/
theorem redirectLoop_chain (ctx : Context) (op : Operation) (A : Nat → String)
    (res : Option Error) (hres : ∀ e, res = some e → e.isShardOwnershipLost = false) :
    ∀ (k fuel : Nat) (c : clientImpl) (client : Handle) (calls : List Handle),
      k < fuel →
      (∀ i, i ≤ k → ctx.IsValid (calls.length + i) = none) →
      (∀ i, i < k → ∀ h, op (calls.length + i) h =
          some (.ShardOwnershipLostError (some (A (calls.length + i + 1))))) →
      (∀ h, op (calls.length + k) h = res) →
      c.thriftCache.get (A calls.length) = some client →
      ∃ run, redirectLoop ctx op fuel c client calls = some run ∧
        run.outcome = .returned res ∧
        ∃ rest, run.calls = calls ++ rest ∧ rest.length = k + 1 ∧
          (∀ i, i ≤ k → rest[i]? = run.client.thriftCache.get (A (calls.length + i))) ∧
          (∀ a h, c.thriftCache.get a = some h → run.client.thriftCache.get a = some h) ∧
          run.client.cacheLookups =
            c.cacheLookups ++ (List.range k).map (fun i => A (calls.length + i + 1)) := by
  intro k
  induction k with
  | zero =>
    intro fuel c client calls hfuel hv _ hok hinit
    obtain ⟨f, rfl⟩ : ∃ f, fuel = f + 1 := ⟨fuel - 1, by omega⟩
    have hv0 : ctx.IsValid calls.length = none := by simpa using hv 0 (le_refl 0)
    have hop : op calls.length client = res := by simpa using hok client
    have hfin : ∀ e, op calls.length client = some e → e.isShardOwnershipLost = false := by
      intro e he; exact hres e (hop ▸ he)
    refine ⟨_, redirectLoop_final ctx op f c client calls hv0 hfin, by simp [hop],
      [client], rfl, rfl, ?_, fun a h ha => ha, by simp⟩
    intro i hi
    have : i = 0 := by omega
    subst this
    simp [hinit]
  | succ k ih =>
    intro fuel c client calls hfuel hv hlost hok hinit
    obtain ⟨f, rfl⟩ : ∃ f, fuel = f + 1 := ⟨fuel - 1, by omega⟩
    have hv0 : ctx.IsValid calls.length = none := by simpa using hv 0 (Nat.zero_le _)
    have hop : op calls.length client =
        some (.ShardOwnershipLostError (some (A (calls.length + 1)))) := by
      simpa using hlost 0 (Nat.succ_pos k) client
    have hlen : (calls ++ [client]).length = calls.length + 1 := by simp
    have hstep := redirectLoop_redirect ctx op f c client calls _ hv0 hop
    obtain ⟨run, hrun, hout, rest, hcalls, hrlen, hhandles, hkeep, hlook⟩ :=
      ih f (getThriftClient c (A (calls.length + 1))).2
        (getThriftClient c (A (calls.length + 1))).1 (calls ++ [client]) (by omega)
        (by
          intro i hi
          rw [hlen]
          have := hv (i + 1) (by omega)
          rwa [show calls.length + 1 + i = calls.length + (i + 1) by omega])
        (by
          intro i hi h
          rw [hlen]
          have := hlost (i + 1) (by omega) h
          rwa [show calls.length + 1 + i = calls.length + (i + 1) by omega])
        (by
          intro h
          rw [hlen]
          have := hok h
          rwa [show calls.length + 1 + k = calls.length + (k + 1) by omega])
        (by rw [hlen]; exact getThriftClient_cached c _)
    refine ⟨run, hstep.trans hrun, hout, client :: rest, by simp [hcalls], by simp [hrlen],
      ?_, ?_, ?_⟩
    · intro i hi
      cases i with
      | zero =>
        have := hkeep _ _ (getThriftClient_keeps c (A (calls.length + 1)) _ _ hinit)
        simp [this]
      | succ i =>
        have := hhandles i (by omega)
        rw [hlen] at this
        rw [show calls.length + (i + 1) = calls.length + 1 + i by omega]
        simpa using this
    · intro a h ha
      exact hkeep _ _ (getThriftClient_keeps c _ _ _ ha)
    · rw [hlook, getThriftClient_cacheLookups, hlen, List.range_succ_eq_map]
      simp [Function.comp_def, Nat.add_assoc, Nat.add_comm 1]

/-! ## Lemmas on the handles the loop holds -/

theorem heldAt_shift (c : clientImpl) (client : Handle) (B : Nat → String) (i : Nat) :
    heldAt (getThriftClient c (B 1)).2 (getThriftClient c (B 1)).1 (fun j => B (j + 1)) i =
      heldAt c client B (i + 1) := by
  induction i with
  | zero => rfl
  | succ i ih =>
    show getThriftClient (heldAt _ _ (fun j => B (j + 1)) i).2 (B (i + 1 + 1)) = _
    rw [ih]
    rfl

theorem heldAt_cacheLookups (c : clientImpl) (client : Handle) (B : Nat → String) (k : Nat) :
    (heldAt c client B k).2.cacheLookups =
      c.cacheLookups ++ (List.range k).map (fun i => B (i + 1)) := by
  induction k with
  | zero => simp [heldAt]
  | succ k ih =>
    show (getThriftClient (heldAt c client B k).2 (B (k + 1))).2.cacheLookups = _
    rw [getThriftClient_cacheLookups, ih, List.range_succ]
    simp

theorem heldAt_keeps (c : clientImpl) (client : Handle) (B : Nat → String) (i k : Nat)
    (hik : i ≤ k) (a : String) (h : Handle)
    (ha : (heldAt c client B i).2.thriftCache.get a = some h) :
    (heldAt c client B k).2.thriftCache.get a = some h := by
  induction k with
  | zero =>
    have : i = 0 := by omega
    subst this
    exact ha
  | succ k ih =>
    by_cases hi : i = k + 1
    · subst hi
      exact ha
    · exact getThriftClient_keeps _ _ _ _ (ih (by omega))

theorem heldAt_cached (c : clientImpl) (client : Handle) (B : Nat → String)
    (hinit : c.thriftCache.get (B 0) = some client) (i : Nat) :
    (heldAt c client B i).2.thriftCache.get (B i) = some (heldAt c client B i).1 := by
  cases i with
  | zero => exact hinit
  | succ i => exact getThriftClient_cached _ _

/-- A chain of `k` redirects followed by a call that returns `res`, which is
not ownership-lost, each answer being that of the call actually made: call
`calls.length + i` against the handle held then. -/
theorem redirectLoop_held (ctx : Context) (op : Operation) (res : Option Error)
    (hres : ∀ e, res = some e → e.isShardOwnershipLost = false) :
    ∀ (k fuel : Nat) (c : clientImpl) (client : Handle) (calls : List Handle)
      (B : Nat → String),
      k < fuel →
      (∀ i, i ≤ k → ctx.IsValid (calls.length + i) = none) →
      (∀ i, i < k → op (calls.length + i) (heldAt c client B i).1 =
          some (.ShardOwnershipLostError (some (B (i + 1))))) →
      op (calls.length + k) (heldAt c client B k).1 = res →
      redirectLoop ctx op fuel c client calls =
        some { outcome := .returned res,
               calls := calls ++ (List.range (k + 1)).map (fun i => (heldAt c client B i).1),
               client := (heldAt c client B k).2 } := by
  intro k
  induction k with
  | zero =>
    intro fuel c client calls B hfuel hv _ hok
    obtain ⟨f, rfl⟩ : ∃ f, fuel = f + 1 := ⟨fuel - 1, by omega⟩
    have hv0 : ctx.IsValid calls.length = none := by simpa using hv 0 (le_refl 0)
    have hop : op calls.length client = res := by simpa [heldAt] using hok
    have hfin : ∀ e, op calls.length client = some e → e.isShardOwnershipLost = false := by
      intro e he; exact hres e (hop ▸ he)
    rw [redirectLoop_final ctx op f c client calls hv0 hfin, hop]
    rfl
  | succ k ih =>
    intro fuel c client calls B hfuel hv hlost hok
    obtain ⟨f, rfl⟩ : ∃ f, fuel = f + 1 := ⟨fuel - 1, by omega⟩
    have hv0 : ctx.IsValid calls.length = none := by simpa using hv 0 (Nat.zero_le _)
    have hop : op calls.length client =
        some (.ShardOwnershipLostError (some (B 1))) := by
      simpa [heldAt] using hlost 0 (Nat.succ_pos k)
    have hlen : (calls ++ [client]).length = calls.length + 1 := by simp
    rw [redirectLoop_redirect ctx op f c client calls _ hv0 hop]
    rw [ih f (getThriftClient c (B 1)).2 (getThriftClient c (B 1)).1 (calls ++ [client])
        (fun j => B (j + 1)) (by omega)
        (by
          intro i hi
          rw [hlen]
          have := hv (i + 1) (by omega)
          rwa [show calls.length + 1 + i = calls.length + (i + 1) by omega])
        (by
          intro i hi
          rw [hlen, heldAt_shift c client B i]
          have := hlost (i + 1) (by omega)
          rwa [show calls.length + 1 + i = calls.length + (i + 1) by omega])
        (by
          rw [hlen, heldAt_shift c client B k]
          rwa [show calls.length + 1 + k = calls.length + (k + 1) by omega])]
    have hmap : (List.range (k + 1)).map
          (fun i => (heldAt (getThriftClient c (B 1)).2 (getThriftClient c (B 1)).1
            (fun j => B (j + 1)) i).1) =
        (List.range (k + 1)).map (fun i => (heldAt c client B (i + 1)).1) := by
      apply List.map_congr_left
      intro i _
      rw [heldAt_shift c client B i]
    rw [hmap, heldAt_shift c client B k]
    have hr : (List.range (k + 1 + 1)).map (fun i => (heldAt c client B i).1) =
        client :: (List.range (k + 1)).map (fun i => (heldAt c client B (i + 1)).1) := by
      rw [List.range_succ_eq_map]
      simp [heldAt, Function.comp_def]
    rw [hr]
    simp

/-! ## The connection cache: claims -/

theorem getThriftClients_keeps (bs : List String) :
    ∀ (c : clientImpl) (b : String) (h : Handle), c.thriftCache.get b = some h →
      (getThriftClients c bs).thriftCache.get b = some h := by
  induction bs with
  | nil => intro c b h hb; exact hb
  | cons a bs ih =>
    intro c b h hb
    exact ih _ b h (getThriftClient_keeps c a b h hb)

theorem getThriftClient_count_cached (c : clientImpl) (a b : String) (h : Handle)
    (ha : c.thriftCache.get a = some h) :
    (getThriftClient c b).2.factoryCalls.count a = c.factoryCalls.count a := by
  cases hb : c.thriftCache.get b with
  | some h' => rw [getThriftClient_hit c b h' hb]
  | none =>
    have hne : b ≠ a := by
      intro e; subst e; rw [ha] at hb; cases hb
    rw [getThriftClient_miss c b hb]
    simp [List.count_append, List.count_cons, hne]

theorem getThriftClients_count_cached (bs : List String) :
    ∀ (c : clientImpl) (a : String) (h : Handle), c.thriftCache.get a = some h →
      (getThriftClients c bs).factoryCalls.count a = c.factoryCalls.count a := by
  induction bs with
  | nil => intro c a h _; rfl
  | cons b bs ih =>
    intro c a h ha
    have := ih (getThriftClient c b).2 a h (getThriftClient_keeps c b a h ha)
    exact this.trans (getThriftClient_count_cached c a b h ha)

/-- C9: `getThriftClient(a)`, run without interleaving, calls the factory
exactly when `a` is absent from the cache (once, for `a`) and returns the
cached handle when it is present; afterwards the cache maps `a` to the
returned handle and every other address as before; and after any further
`getThriftClient` calls, a call for `a` returns the same handle without a
factory call, the factory having been called for `a` no more. -/
theorem getThriftClient_get_or_create (c : clientImpl) (a : String) :
    (getThriftClient c a).2.factoryCalls =
      (if (c.thriftCache.get a).isNone then c.factoryCalls ++ [a] else c.factoryCalls) ∧
    (∀ h, c.thriftCache.get a = some h → (getThriftClient c a).1 = h) ∧
    (getThriftClient c a).2.thriftCache.get a = some (getThriftClient c a).1 ∧
    (∀ b, b ≠ a → (getThriftClient c a).2.thriftCache.get b = c.thriftCache.get b) ∧
    (∀ bs : List String,
      (getThriftClient (getThriftClients (getThriftClient c a).2 bs) a).1 =
        (getThriftClient c a).1 ∧
      (getThriftClient (getThriftClients (getThriftClient c a).2 bs) a).2.factoryCalls =
        (getThriftClients (getThriftClient c a).2 bs).factoryCalls ∧
      (getThriftClients (getThriftClient c a).2 bs).factoryCalls.count a =
        (getThriftClient c a).2.factoryCalls.count a) := by
  refine ⟨?_, ?_, getThriftClient_cached c a, fun b hb => getThriftClient_other c a b hb, ?_⟩
  · cases hc : c.thriftCache.get a with
    | some h => rw [getThriftClient_hit c a h hc]; simp
    | none => rw [getThriftClient_miss c a hc]; simp
  · intro h hc
    rw [getThriftClient_hit c a h hc]
  · intro bs
    have hlater := getThriftClients_keeps bs _ a _ (getThriftClient_cached c a)
    refine ⟨?_, ?_, getThriftClients_count_cached bs _ a _ (getThriftClient_cached c a)⟩
    · rw [getThriftClient_hit _ a _ hlater]
    · rw [getThriftClient_hit _ a _ hlater]

/-! ## The connection cache under concurrent callers -/

/-- The two critical sections of one caller, run back to back, are
`getThriftClient`. -/
theorem getThriftClient_eq_steps (c : clientImpl) (a : String) :
    stepThread a (stepThread a c .start).2 (stepThread a c .start).1 =
      (.done (getThriftClient c a).1, (getThriftClient c a).2) := by
  cases hc : c.thriftCache.get a with
  | some h => simp [stepThread, getThriftClient, hc]
  | none => simp [stepThread, getThriftClient, hc, createThriftClient]

theorem stepSystem_length (a : String) (s : CacheSystem) (t : Nat) :
    (stepSystem a s t).threads.length = s.threads.length := by
  unfold stepSystem
  cases s.threads[t]? with
  | none => rfl
  | some st => simp

theorem runSchedule_length (a : String) (schedule : List Nat) :
    ∀ s : CacheSystem, (runSchedule a s schedule).threads.length = s.threads.length := by
  induction schedule with
  | nil => intro s; rfl
  | cons t rest ih =>
    intro s
    exact (ih (stepSystem a s t)).trans (stepSystem_length a s t)

theorem stepSystem_inv (c0 : clientImpl) (a : String) (s : CacheSystem) (t : Nat)
    (hinv : CacheInv c0 a s) : CacheInv c0 a (stepSystem a s t) := by
  unfold stepSystem
  cases hs : s.threads[t]? with
  | none => exact hinv
  | some st =>
    have hmem : st ∈ s.threads := List.getElem?_mem hs
    rcases hinv with ⟨hget, hfac, hall⟩ | ⟨h, hget, hfac, hall⟩
    · cases st with
      | start =>
        refine Or.inl ⟨by simp [stepThread, hget], by simpa [stepThread, hget] using hfac, ?_⟩
        intro st' hst'
        simp only [stepThread, hget] at hst'
        rcases List.mem_or_eq_of_mem_set hst' with h1 | h1
        · exact hall st' h1
        · exact Or.inr h1
      | missed =>
        refine Or.inr ⟨⟨s.c.factoryCalls.length, a⟩, ?_, ?_, ?_⟩
        · simp only [stepThread, hget, createThriftClient]
          exact GoMap.get_set_self _ _ _
        · simp [stepThread, hget, createThriftClient, hfac]
        · intro st' hst'
          simp only [stepThread, hget, createThriftClient] at hst'
          rcases List.mem_or_eq_of_mem_set hst' with h1 | h1
          · rcases hall st' h1 with h2 | h2
            · exact Or.inl h2
            · exact Or.inr (Or.inl h2)
          · exact Or.inr (Or.inr h1)
      | done h' =>
        rcases hall _ hmem with h2 | h2 <;> cases h2
    · cases st with
      | start =>
        refine Or.inr ⟨h, by simp [stepThread, hget], by simpa [stepThread, hget] using hfac, ?_⟩
        intro st' hst'
        simp only [stepThread, hget] at hst'
        rcases List.mem_or_eq_of_mem_set hst' with h1 | h1
        · exact hall st' h1
        · exact Or.inr (Or.inr h1)
      | missed =>
        refine Or.inr ⟨h, by simp [stepThread, hget], by simpa [stepThread, hget] using hfac, ?_⟩
        intro st' hst'
        simp only [stepThread, hget] at hst'
        rcases List.mem_or_eq_of_mem_set hst' with h1 | h1
        · exact hall st' h1
        · exact Or.inr (Or.inr h1)
      | done h' =>
        refine Or.inr ⟨h, by simpa [stepThread] using hget, by simpa [stepThread] using hfac, ?_⟩
        intro st' hst'
        simp only [stepThread] at hst'
        rcases List.mem_or_eq_of_mem_set hst' with h1 | h1
        · exact hall st' h1
        · subst h1
          exact hall _ hmem

theorem runSchedule_inv (c0 : clientImpl) (a : String) (schedule : List Nat) :
    ∀ s : CacheSystem, CacheInv c0 a s → CacheInv c0 a (runSchedule a s schedule) := by
  induction schedule with
  | nil => intro s h; exact h
  | cons t rest ih =>
    intro s h
    exact ih _ (stepSystem_inv c0 a s t h)

theorem stepThread_rank (a : String) (c : clientImpl) (st : ThreadState) :
    min 2 (st.rank + 1) ≤ (stepThread a c st).1.rank := by
  cases st with
  | start =>
    cases hc : c.thriftCache.get a <;> simp [stepThread, hc, ThreadState.rank]
  | missed =>
    cases hc : c.thriftCache.get a <;>
      simp [stepThread, hc, ThreadState.rank, createThriftClient]
  | done h => simp [stepThread, ThreadState.rank]

theorem stepSystem_rank (a : String) (s : CacheSystem) (u t : Nat) :
    min 2 (rankAt s t + (if u = t then 1 else 0)) ≤ rankAt (stepSystem a s u) t := by
  unfold stepSystem
  cases hs : s.threads[u]? with
  | none =>
    by_cases hut : u = t
    · subst hut
      simp [rankAt, hs]
    · simp [hut]
  | some st =>
    by_cases hut : u = t
    · subst hut
      have hlt : u < s.threads.length := by
        by_contra hge
        rw [List.getElem?_eq_none (by omega)] at hs
        cases hs
      have := stepThread_rank a s.c st
      simp only [rankAt, hs, List.getElem?_set_self hlt, if_true]
      exact this
    · have : (s.threads.set u (stepThread a s.c st).1)[t]? = s.threads[t]? :=
        List.getElem?_set_ne hut
      simp only [rankAt, this, hut, if_false]
      omega

theorem runSchedule_rank (a : String) (t : Nat) (schedule : List Nat) :
    ∀ s : CacheSystem,
      min 2 (rankAt s t + schedule.count t) ≤ rankAt (runSchedule a s schedule) t := by
  induction schedule with
  | nil => intro s; simp [runSchedule]
  | cons u rest ih =>
    intro s
    have h1 := ih (stepSystem a s u)
    have h2 := stepSystem_rank a s u t
    have h3 : (u :: rest).count t = rest.count t + (if u = t then 1 else 0) := by
      rw [List.count_cons]
      simp
    have h4 : runSchedule a s (u :: rest) = runSchedule a (stepSystem a s u) rest := rfl
    rw [h3, h4]
    omega

theorem allDone_of_rank (s : CacheSystem) (h : ∀ t, t < s.threads.length → rankAt s t = 2) :
    allDone s = true := by
  unfold allDone
  rw [List.all_eq_true]
  intro st hst
  obtain ⟨t, ht, rfl⟩ := List.getElem_of_mem hst
  have := h t ht
  simp only [rankAt, List.getElem?_eq_getElem ht] at this
  cases h' : s.threads[t] with
  | start => rw [h'] at this; simp [ThreadState.rank] at this
  | missed => rw [h'] at this; simp [ThreadState.rank] at this
  | done h => rfl

/-- C10: `M` callers enter `getThriftClient(a)` while the cache has no handle
for `a`, and run their two lock-protected sections in any interleaving.  If
all of them have returned, the factory was called exactly once, for `a`, and
all `M` hold the same handle, the cached one.  They all return as soon as each
has been scheduled twice. -/
theorem getThriftClient_concurrent_first_requests (c : clientImpl) (a : String) (M : Nat)
    (schedule : List Nat) (habsent : c.thriftCache.get a = none) (hM : 0 < M) :
    (allDone (runSchedule a (firstRequests c M) schedule) = true →
      (runSchedule a (firstRequests c M) schedule).c.factoryCalls = c.factoryCalls ++ [a] ∧
      ∃ h, (runSchedule a (firstRequests c M) schedule).threads = List.replicate M (.done h) ∧
        (runSchedule a (firstRequests c M) schedule).c.thriftCache.get a = some h) ∧
    ((∀ t, t < M → 2 ≤ schedule.count t) →
      allDone (runSchedule a (firstRequests c M) schedule) = true) := by
  have hlen : (runSchedule a (firstRequests c M) schedule).threads.length = M := by
    rw [runSchedule_length]
    simp [firstRequests]
  constructor
  · intro hdone
    have hinit : CacheInv c a (firstRequests c M) := by
      refine Or.inl ⟨habsent, rfl, ?_⟩
      intro st hst
      exact Or.inl (List.eq_of_mem_replicate hst)
    have hinv := runSchedule_inv c a schedule _ hinit
    unfold allDone at hdone
    rw [List.all_eq_true] at hdone
    rcases hinv with ⟨-, -, hall⟩ | ⟨h, hget, hfac, hall⟩
    · exfalso
      obtain ⟨st, hmem⟩ := List.exists_mem_of_length_pos (hlen ▸ hM)
      have h1 := hdone _ hmem
      rcases hall _ hmem with h2 | h2 <;> rw [h2] at h1 <;> simp at h1
    · refine ⟨hfac, h, ?_, hget⟩
      rw [List.eq_replicate_iff]
      refine ⟨hlen, ?_⟩
      intro st hst
      have h1 := hdone _ hst
      rcases hall _ hst with h2 | h2 | h2
      · rw [h2] at h1; simp at h1
      · rw [h2] at h1; simp at h1
      · exact h2
  · intro hsched
    apply allDone_of_rank
    intro t ht
    rw [hlen] at ht
    have h1 := runSchedule_rank a t schedule (firstRequests c M)
    have h2 := hsched t ht
    have h3 : rankAt (runSchedule a (firstRequests c M) schedule) t ≤ 2 := by
      unfold rankAt
      cases (runSchedule a (firstRequests c M) schedule).threads[t]? with
      | none => exact le_refl 2
      | some st => cases st <;> simp [ThreadState.rank]
    omega

/-! ## The visibility sampling client: lemmas -/

theorem RecordWorkflowExecutionStarted_admitted (env : SamplingEnv)
    (p : visibilitySamplingClient) (request : RecordWorkflowExecutionStartedRequest)
    (h : openAdmission env p request = true) :
    RecordWorkflowExecutionStarted env p request =
      (env.RecordWorkflowExecutionStarted p.persistenceCalls.length request,
       { rateLimitersForOpen := (getRateLimiter p.rateLimitersForOpen request.Domain
           numOfPriorityForOpen (env.VisibilityOpenMaxQPS request.Domain)).2,
         rateLimitersForClosed := p.rateLimitersForClosed,
         tokenRequests := p.tokenRequests ++ [TokenRequest.mk
           (getRateLimiter p.rateLimitersForOpen request.Domain numOfPriorityForOpen
             (env.VisibilityOpenMaxQPS request.Domain)).1 0 1],
         persistenceCalls := p.persistenceCalls ++ [PersistenceCall.Started request],
         counters := p.counters,
         logs := p.logs ++ [LogEntry.testConfig "history.historyVisibilityOpenMaxQPS"
           (env.VisibilityOpenMaxQPS request.Domain)] }) := by
  unfold openAdmission at h
  simp only [RecordWorkflowExecutionStarted, h, if_true]

theorem RecordWorkflowExecutionStarted_denied (env : SamplingEnv)
    (p : visibilitySamplingClient) (request : RecordWorkflowExecutionStartedRequest)
    (h : openAdmission env p request = false) :
    RecordWorkflowExecutionStarted env p request =
      (none,
       { rateLimitersForOpen := (getRateLimiter p.rateLimitersForOpen request.Domain
           numOfPriorityForOpen (env.VisibilityOpenMaxQPS request.Domain)).2,
         rateLimitersForClosed := p.rateLimitersForClosed,
         tokenRequests := p.tokenRequests ++ [TokenRequest.mk
           (getRateLimiter p.rateLimitersForOpen request.Domain numOfPriorityForOpen
             (env.VisibilityOpenMaxQPS request.Domain)).1 0 1],
         persistenceCalls := p.persistenceCalls,
         counters := p.counters ++
           [(MetricScope.PersistenceRecordWorkflowExecutionStartedScope,
             MetricCounter.PersistenceSampledCounter)],
         logs := p.logs ++ [LogEntry.testConfig "history.historyVisibilityOpenMaxQPS"
             (env.VisibilityOpenMaxQPS request.Domain)] ++
           [LogEntry.openWorkflowSampled request.Domain request.Execution.GetWorkflowId
             request.Execution.GetRunId request.WorkflowTypeName] }) := by
  unfold openAdmission at h
  simp [RecordWorkflowExecutionStarted, h]

theorem RecordWorkflowExecutionClosed_admitted (env : SamplingEnv)
    (p : visibilitySamplingClient) (request : RecordWorkflowExecutionClosedRequest)
    (h : closedAdmission env p request = true) :
    RecordWorkflowExecutionClosed env p request =
      (env.RecordWorkflowExecutionClosed p.persistenceCalls.length request,
       { rateLimitersForOpen := p.rateLimitersForOpen,
         rateLimitersForClosed := (getRateLimiter p.rateLimitersForClosed request.Domain
           numOfPriorityForClosed (env.VisibilityClosedMaxQPS request.Domain)).2,
         tokenRequests := p.tokenRequests ++ [TokenRequest.mk
           (getRateLimiter p.rateLimitersForClosed request.Domain numOfPriorityForClosed
             (env.VisibilityClosedMaxQPS request.Domain)).1 (getRequestPriority request) 1],
         persistenceCalls := p.persistenceCalls ++ [PersistenceCall.Closed request],
         counters := p.counters,
         logs := p.logs ++ [LogEntry.testConfig "history.historyVisibilityClosedMaxQPS"
           (env.VisibilityClosedMaxQPS request.Domain)] }) := by
  unfold closedAdmission at h
  simp only [RecordWorkflowExecutionClosed, h, if_true]

theorem RecordWorkflowExecutionClosed_denied (env : SamplingEnv)
    (p : visibilitySamplingClient) (request : RecordWorkflowExecutionClosedRequest)
    (h : closedAdmission env p request = false) :
    RecordWorkflowExecutionClosed env p request =
      (none,
       { rateLimitersForOpen := p.rateLimitersForOpen,
         rateLimitersForClosed := (getRateLimiter p.rateLimitersForClosed request.Domain
           numOfPriorityForClosed (env.VisibilityClosedMaxQPS request.Domain)).2,
         tokenRequests := p.tokenRequests ++ [TokenRequest.mk
           (getRateLimiter p.rateLimitersForClosed request.Domain numOfPriorityForClosed
             (env.VisibilityClosedMaxQPS request.Domain)).1 (getRequestPriority request) 1],
         persistenceCalls := p.persistenceCalls,
         counters := p.counters ++
           [(MetricScope.PersistenceRecordWorkflowExecutionClosedScope,
             MetricCounter.PersistenceSampledCounter)],
         logs := p.logs ++ [LogEntry.testConfig "history.historyVisibilityClosedMaxQPS"
             (env.VisibilityClosedMaxQPS request.Domain)] ++
           [LogEntry.closedWorkflowSampled request.Domain request.Execution.GetWorkflowId
             request.Execution.GetRunId request.WorkflowTypeName] }) := by
  unfold closedAdmission at h
  simp [RecordWorkflowExecutionClosed, h]

theorem GoMap.mem_of_get {V : Type} (m : GoMap V) (k : String) (v : V)
    (h : GoMap.get m k = some v) : (k, v) ∈ m := by
  induction m with
  | nil => simp [GoMap.get] at h
  | cons p rest ih =>
    obtain ⟨a, w⟩ := p
    by_cases ha : a = k
    · simp only [GoMap.get, ha, if_true, Option.some.injEq] at h
      simp [ha, h]
    · simp only [GoMap.get, ha, if_false] at h
      exact List.mem_cons_of_mem _ (ih h)

theorem GoMap.mem_set {V : Type} (m : GoMap V) (k : String) (v : V) (kv : String × V)
    (h : kv ∈ GoMap.set m k v) : kv = (k, v) ∨ kv ∈ m := by
  simp only [GoMap.set, List.mem_cons, List.mem_filter] at h
  rcases h with h | h
  · exact Or.inl h
  · exact Or.inr h.1

theorem getRateLimiter_hit (m : domainToBucketMap) (d : String) (n q : Int)
    (b : PriorityTokenBucket) (h : m.mappings.get d = some b) :
    getRateLimiter m d n q = (b, m) := by
  unfold getRateLimiter
  simp only [h]

theorem getRateLimiter_miss (m : domainToBucketMap) (d : String) (n q : Int)
    (h : m.mappings.get d = none) :
    getRateLimiter m d n q =
      ({ serial := m.bucketsMade.length, numOfPriority := n, qps := q },
       { mappings := m.mappings.set d
           { serial := m.bucketsMade.length, numOfPriority := n, qps := q },
         bucketsMade := m.bucketsMade ++
           [{ serial := m.bucketsMade.length, numOfPriority := n, qps := q }] }) := by
  unfold getRateLimiter
  simp only [h]

theorem getRateLimiter_cached (m : domainToBucketMap) (d : String) (n q : Int) :
    (getRateLimiter m d n q).2.mappings.get d = some (getRateLimiter m d n q).1 := by
  cases h : m.mappings.get d with
  | some b => rw [getRateLimiter_hit m d n q b h]; exact h
  | none => rw [getRateLimiter_miss m d n q h]; exact GoMap.get_set_self _ _ _

theorem getRateLimiter_keeps (m : domainToBucketMap) (d d' : String) (n q : Int)
    (b : PriorityTokenBucket) (hb : m.mappings.get d' = some b) :
    (getRateLimiter m d n q).2.mappings.get d' = some b := by
  cases h : m.mappings.get d with
  | some b' => rw [getRateLimiter_hit m d n q b' h]; exact hb
  | none =>
    have hne : d' ≠ d := by
      intro e; subst e; rw [hb] at h; cases h
    rw [getRateLimiter_miss m d n q h]
    exact (GoMap.get_set_ne _ _ _ _ hne).trans hb

theorem getRateLimiter_levels (m : domainToBucketMap) (d : String) (n q : Int)
    (hm : ∀ kv ∈ m.mappings, kv.2.numOfPriority = n) :
    (getRateLimiter m d n q).1.numOfPriority = n ∧
      ∀ kv ∈ (getRateLimiter m d n q).2.mappings, kv.2.numOfPriority = n := by
  cases h : m.mappings.get d with
  | some b =>
    rw [getRateLimiter_hit m d n q b h]
    exact ⟨hm _ (GoMap.mem_of_get _ _ _ h), hm⟩
  | none =>
    rw [getRateLimiter_miss m d n q h]
    refine ⟨rfl, ?_⟩
    intro kv hkv
    rcases GoMap.mem_set _ _ _ _ hkv with e | hmem
    · rw [e]
    · exact hm kv hmem

/-- One call of `RecordWorkflowExecutionStarted`, by the answer of the limiter. -/
theorem RecordWorkflowExecutionStarted_step (env : SamplingEnv)
    (p : visibilitySamplingClient) (request : RecordWorkflowExecutionStartedRequest) :
    (RecordWorkflowExecutionStarted env p request).1 =
      (if openAdmission env p request
        then env.RecordWorkflowExecutionStarted p.persistenceCalls.length request else none) ∧
    (RecordWorkflowExecutionStarted env p request).2.rateLimitersForOpen =
      (getRateLimiter p.rateLimitersForOpen request.Domain numOfPriorityForOpen
        (env.VisibilityOpenMaxQPS request.Domain)).2 ∧
    (RecordWorkflowExecutionStarted env p request).2.rateLimitersForClosed =
      p.rateLimitersForClosed ∧
    (RecordWorkflowExecutionStarted env p request).2.tokenRequests =
      p.tokenRequests ++ [TokenRequest.mk
        (getRateLimiter p.rateLimitersForOpen request.Domain numOfPriorityForOpen
          (env.VisibilityOpenMaxQPS request.Domain)).1 0 1] ∧
    (RecordWorkflowExecutionStarted env p request).2.persistenceCalls =
      p.persistenceCalls ++
        (if openAdmission env p request then [PersistenceCall.Started request] else []) ∧
    (RecordWorkflowExecutionStarted env p request).2.counters =
      p.counters ++ (if openAdmission env p request then []
        else [(MetricScope.PersistenceRecordWorkflowExecutionStartedScope,
               MetricCounter.PersistenceSampledCounter)]) := by
  cases h : openAdmission env p request with
  | true => rw [RecordWorkflowExecutionStarted_admitted env p request h]; simp
  | false => rw [RecordWorkflowExecutionStarted_denied env p request h]; simp

theorem recordStartedAll_cons (env : SamplingEnv) (p : visibilitySamplingClient)
    (request : RecordWorkflowExecutionStartedRequest)
    (rest : List RecordWorkflowExecutionStartedRequest) :
    recordStartedAll env p (request :: rest) =
      ((RecordWorkflowExecutionStarted env p request).1 ::
        (recordStartedAll env (RecordWorkflowExecutionStarted env p request).2 rest).1,
       (recordStartedAll env (RecordWorkflowExecutionStarted env p request).2 rest).2) := rfl

theorem recordStartedAll_keeps_open (env : SamplingEnv)
    (requests : List RecordWorkflowExecutionStartedRequest) :
    ∀ (p : visibilitySamplingClient) (d : String) (b : PriorityTokenBucket),
      p.rateLimitersForOpen.mappings.get d = some b →
      (recordStartedAll env p requests).2.rateLimitersForOpen.mappings.get d = some b := by
  induction requests with
  | nil => intro p d b h; exact h
  | cons r rest ih =>
    intro p d b h
    rw [recordStartedAll_cons]
    apply ih
    rw [(RecordWorkflowExecutionStarted_step env p r).2.1]
    exact getRateLimiter_keeps _ _ _ _ _ _ h

theorem getRateLimiter_again (m : domainToBucketMap) (d : String) (n q n' q' : Int) :
    getRateLimiter (getRateLimiter m d n q).2 d n' q' =
      ((getRateLimiter m d n q).1, (getRateLimiter m d n q).2) :=
  getRateLimiter_hit _ d n' q' _ (getRateLimiter_cached m d n q)

/-! ## The redirect loop: claims -/

/-- C1: with a context that stays valid through call r, a first handle that
is the cached handle of `A 0`, and a callee whose calls, each against the
handle the loop holds at that call, return the ownership-lost error at the
calls 0, ..., r-1, call i naming the owner `A (i+1)`, and nil at call r: with
fuel for r+1 iterations `executeWithRedirect` returns nil after exactly r+1
invocations, invocation i is made against the handle held then, which is the
cached handle of `A i` (so the last one against that of `A r`), and the r
handles of the retries were got by cache lookups of `A 1`, ..., `A r`. -/
theorem executeWithRedirect_follows_redirects (r : Nat) (A : Nat → String) (fuel : Nat)
    (c : clientImpl) (ctx : Option Context) (client : Handle) (op : Operation)
    (hfuel : r < fuel)
    (hctx : ∀ i, i ≤ r → (effectiveContext ctx).IsValid i = none)
    (hlost : ∀ i, i < r → op i (heldAt c client A i).1 =
      some (.ShardOwnershipLostError (some (A (i + 1)))))
    (hok : op r (heldAt c client A r).1 = none)
    (hinit : c.thriftCache.get (A 0) = some client) :
    ∃ run, executeWithRedirect fuel c ctx client op = some run ∧
      run.outcome = .returned none ∧
      run.calls.length = r + 1 ∧
      (∀ i, i ≤ r → run.calls[i]? = some (heldAt c client A i).1) ∧
      (∀ i, i ≤ r → run.calls[i]? = run.client.thriftCache.get (A i)) ∧
      run.calls[0]? = some client ∧
      run.client.cacheLookups = c.cacheLookups ++ (List.range r).map (fun i => A (i + 1)) := by
  have hrun := redirectLoop_held (effectiveContext ctx) op none (by simp) r fuel c client [] A
    hfuel (by simpa using hctx) (by simpa using hlost) (by simpa using hok)
  rw [executeWithRedirect_eq, hrun]
  have hcalls : ∀ i, i ≤ r →
      ((List.range (r + 1)).map (fun i => (heldAt c client A i).1))[i]? =
        some (heldAt c client A i).1 := by
    intro i hi
    rw [List.getElem?_map, List.getElem?_range (by omega)]
    rfl
  refine ⟨_, rfl, rfl, by simp, ?_, ?_, ?_, ?_⟩
  · intro i hi
    simpa using hcalls i hi
  · intro i hi
    have h1 := hcalls i hi
    have h2 := heldAt_keeps c client A i r hi (A i) _ (heldAt_cached c client A hinit i)
    simp only [List.nil_append]
    rw [h1, h2]
  · simp only [List.nil_append]
    exact hcalls 0 (Nat.zero_le _)
  · exact heldAt_cacheLookups c client A r

/-- C2: when the validity check of the first iteration fails with `e`, the
operation is not invoked, the cache is not touched and `e` is returned. -/
theorem executeWithRedirect_invalid_context (fuel : Nat) (c : clientImpl) (ctx : Context)
    (client : Handle) (op : Operation) (e : ContextError)
    (hv : ctx.IsValid 0 = some e) :
    executeWithRedirect (fuel + 1) c (some ctx) client op =
      some { outcome := .returned (some (.contextError e)), calls := [], client := c } := by
  rw [executeWithRedirect_eq]
  exact redirectLoop_invalid ctx op fuel c client [] e (by simpa using hv)

/-- C3: an error `e` of the operation that is not ownership-lost ends the loop.
At the head of any iteration with a valid context, one more iteration returns
exactly `e`, with this call as the last one and the client state (cache,
factory calls, cache lookups) untouched; and in every finished run of
`executeWithRedirect`, a call `k` that returned such an `e` is the last call,
`e` is the result, and the cache was looked up only for the `k` redirects
before it. -/
theorem executeWithRedirect_other_error_terminal :
    (∀ (ctx : Context) (op : Operation) (fuel : Nat) (c : clientImpl) (client : Handle)
        (calls : List Handle) (e : Error),
        ctx.IsValid calls.length = none → op calls.length client = some e →
        e.isShardOwnershipLost = false →
        redirectLoop ctx op (fuel + 1) c client calls =
          some { outcome := .returned (some e), calls := calls ++ [client], client := c }) ∧
    (∀ (fuel : Nat) (c : clientImpl) (ctx : Option Context) (client : Handle) (op : Operation)
        (run : Run) (k : Nat) (h : Handle) (e : Error),
        executeWithRedirect fuel c ctx client op = some run →
        run.calls[k]? = some h → op k h = some e → e.isShardOwnershipLost = false →
        run.outcome = .returned (some e) ∧ run.calls.length = k + 1 ∧
          run.client.cacheLookups.length = c.cacheLookups.length + k) := by
  constructor
  · intro ctx op fuel c client calls e hv hop hne
    have := redirectLoop_final ctx op fuel c client calls hv
      (by intro e' he'; rw [hop] at he'; cases he'; exact hne)
    rw [this, hop]
  · intro fuel c ctx client op run k h e hrun hk hop hne
    rw [executeWithRedirect_eq] at hrun
    obtain ⟨rest, n, hcalls, hlook, hred, hfin⟩ := redirectLoop_spec _ _ _ _ _ _ _ hrun
    have hc : run.calls = rest := by simpa using hcalls
    rw [hc] at hk ⊢
    have hkn : ¬ k < n := by
      intro hlt
      obtain ⟨-, h', owner, hh', hop'⟩ := hred k hlt
      rw [hk] at hh'
      cases hh'
      rw [List.length_nil, Nat.zero_add, hop] at hop'
      cases hop'
      simp [Error.isShardOwnershipLost] at hne
    have hklt : k < rest.length := by
      by_contra hge
      rw [List.getElem?_eq_none (by omega)] at hk
      cases hk
    rcases hfin with ⟨ce, -, hlen, -⟩ | ⟨-, hlen, h', hh', hcase⟩
    · omega
    · have hkeq : k = n := by omega
      subst hkeq
      rw [hk] at hh'
      cases hh'
      rw [List.length_nil, Nat.zero_add] at hcase
      rcases hcase with ⟨hnil, -⟩ | ⟨-, hout⟩
      · rw [hop] at hnil
        cases hnil
        simp [Error.isShardOwnershipLost] at hne
      · rw [hop] at hout
        exact ⟨hout, hlen, hlook⟩

/-- C4: an error returned by a finished `executeWithRedirect` is never
ownership-lost.  The result is nil or an error that is not ownership-lost, in
both cases what the last call returned, or it is the context error of a
validity check that failed at the head of an iteration, after as many calls
(redirects) as were made. -/
theorem executeWithRedirect_never_returns_ownership_lost (fuel : Nat) (c : clientImpl)
    (ctx : Option Context) (client : Handle) (op : Operation) (run : Run) (err : Option Error)
    (hrun : executeWithRedirect fuel c ctx client op = some run)
    (hout : run.outcome = .returned err) :
    (∀ o, err ≠ some (.ShardOwnershipLostError o)) ∧
    ((∃ h, run.calls.getLast? = some h ∧ op (run.calls.length - 1) h = err ∧
        ∀ e, err = some e → e.isShardOwnershipLost = false) ∨
     (∃ ce, err = some (.contextError ce) ∧
        (effectiveContext ctx).IsValid run.calls.length = some ce)) := by
  rw [executeWithRedirect_eq] at hrun
  obtain ⟨rest, n, hcalls, -, -, hfin⟩ := redirectLoop_spec _ _ _ _ _ _ _ hrun
  have hc : run.calls = rest := by simpa using hcalls
  rw [hc]
  rcases hfin with ⟨ce, hv, hlen, hout'⟩ | ⟨-, hlen, h, hh, hcase⟩
  · rw [hout] at hout'
    cases hout'
    refine ⟨fun o ho => (by cases ho), Or.inr ⟨ce, rfl, ?_⟩⟩
    rw [hlen]
    simpa using hv
  · rcases hcase with ⟨-, hp⟩ | ⟨hne, hout'⟩
    · rw [hout] at hp
      cases hp
    · rw [hout] at hout'
      cases hout'
      rw [List.length_nil, Nat.zero_add] at hne ⊢
      refine ⟨?_, Or.inl ⟨h, ?_, ?_, hne⟩⟩
      · intro o ho
        have := hne _ ho
        simp [Error.isShardOwnershipLost] at this
      · rw [List.getLast?_eq_getElem?, hlen]
        simpa using hh
      · rw [hlen]
        simp

/-! ## The visibility sampling client: claims -/

/-- C5: when the tenant's limiter denies the token, each of the two gated
writes returns nil, forwards nothing to the downstream manager, and records
one increment of the sampled counter in its own scope (and one log entry with
domain, workflow id, run id and type after the configuration line). -/
theorem gated_write_denied_returns_success :
    (∀ (env : SamplingEnv) (p : visibilitySamplingClient)
        (request : RecordWorkflowExecutionStartedRequest),
        openAdmission env p request = false →
        (RecordWorkflowExecutionStarted env p request).1 = none ∧
        (RecordWorkflowExecutionStarted env p request).2.persistenceCalls =
          p.persistenceCalls ∧
        (RecordWorkflowExecutionStarted env p request).2.counters = p.counters ++
          [(MetricScope.PersistenceRecordWorkflowExecutionStartedScope,
            MetricCounter.PersistenceSampledCounter)] ∧
        (RecordWorkflowExecutionStarted env p request).2.logs = p.logs ++
          [LogEntry.testConfig "history.historyVisibilityOpenMaxQPS"
            (env.VisibilityOpenMaxQPS request.Domain)] ++
          [LogEntry.openWorkflowSampled request.Domain request.Execution.GetWorkflowId
            request.Execution.GetRunId request.WorkflowTypeName]) ∧
    (∀ (env : SamplingEnv) (p : visibilitySamplingClient)
        (request : RecordWorkflowExecutionClosedRequest),
        closedAdmission env p request = false →
        (RecordWorkflowExecutionClosed env p request).1 = none ∧
        (RecordWorkflowExecutionClosed env p request).2.persistenceCalls =
          p.persistenceCalls ∧
        (RecordWorkflowExecutionClosed env p request).2.counters = p.counters ++
          [(MetricScope.PersistenceRecordWorkflowExecutionClosedScope,
            MetricCounter.PersistenceSampledCounter)] ∧
        (RecordWorkflowExecutionClosed env p request).2.logs = p.logs ++
          [LogEntry.testConfig "history.historyVisibilityClosedMaxQPS"
            (env.VisibilityClosedMaxQPS request.Domain)] ++
          [LogEntry.closedWorkflowSampled request.Domain request.Execution.GetWorkflowId
            request.Execution.GetRunId request.WorkflowTypeName]) := by
  constructor
  · intro env p request h
    rw [RecordWorkflowExecutionStarted_denied env p request h]
    exact ⟨rfl, rfl, rfl, rfl⟩
  · intro env p request h
    rw [RecordWorkflowExecutionClosed_denied env p request h]
    exact ⟨rfl, rfl, rfl, rfl⟩

/-- C6: when the tenant's limiter grants the token, each of the two gated
writes calls the matching downstream write once, with the same request,
returns what that call returns, and increments no counter. -/
theorem gated_write_admitted_forwards :
    (∀ (env : SamplingEnv) (p : visibilitySamplingClient)
        (request : RecordWorkflowExecutionStartedRequest),
        openAdmission env p request = true →
        (RecordWorkflowExecutionStarted env p request).1 =
          env.RecordWorkflowExecutionStarted p.persistenceCalls.length request ∧
        (RecordWorkflowExecutionStarted env p request).2.persistenceCalls =
          p.persistenceCalls ++ [PersistenceCall.Started request] ∧
        (RecordWorkflowExecutionStarted env p request).2.counters = p.counters) ∧
    (∀ (env : SamplingEnv) (p : visibilitySamplingClient)
        (request : RecordWorkflowExecutionClosedRequest),
        closedAdmission env p request = true →
        (RecordWorkflowExecutionClosed env p request).1 =
          env.RecordWorkflowExecutionClosed p.persistenceCalls.length request ∧
        (RecordWorkflowExecutionClosed env p request).2.persistenceCalls =
          p.persistenceCalls ++ [PersistenceCall.Closed request] ∧
        (RecordWorkflowExecutionClosed env p request).2.counters = p.counters) := by
  constructor
  · intro env p request h
    rw [RecordWorkflowExecutionStarted_admitted env p request h]
    exact ⟨rfl, rfl, rfl⟩
  · intro env p request h
    rw [RecordWorkflowExecutionClosed_admitted env p request h]
    exact ⟨rfl, rfl, rfl⟩

/-- C7: consecutive open-class writes of one tenant, with a limiter whose
successive answers to the requests made, each for 1 token at priority 0 on
the tenant's open-class limiter, are `decisions`, and a downstream write
that always succeeds: every call returns nil; the forwarded downstream writes
are as many as the admits, each a `RecordWorkflowExecutionStarted` of one of
the requests; the sampled-counter increments are as many as the denials, all
in the scope of the open-class write; and there is one `GetToken` call per
write, each at priority 0 for 1 token, on that limiter, which is the one the
open-class map holds for the tenant. -/
theorem open_writes_follow_admission (env : SamplingEnv) (tenant : String)
    (requests : List RecordWorkflowExecutionStartedRequest) :
    ∀ (p : visibilitySamplingClient) (decisions : List Bool),
      (∀ r ∈ requests, r.Domain = tenant) →
      decisions.length = requests.length →
      (∀ i, i < requests.length →
        env.GetToken (p.tokenRequests.length + i)
          (getRateLimiter p.rateLimitersForOpen tenant numOfPriorityForOpen
            (env.VisibilityOpenMaxQPS tenant)).1 0 1 = decisions.getD i false) →
      (∀ i r, env.RecordWorkflowExecutionStarted i r = none) →
      (recordStartedAll env p requests).1 = List.replicate requests.length none ∧
      (∃ forwarded, (recordStartedAll env p requests).2.persistenceCalls =
          p.persistenceCalls ++ forwarded ∧
        forwarded.length = decisions.count true ∧
        ∀ call ∈ forwarded, ∃ r ∈ requests, call = PersistenceCall.Started r) ∧
      (recordStartedAll env p requests).2.counters = p.counters ++
        List.replicate (decisions.count false)
          (MetricScope.PersistenceRecordWorkflowExecutionStartedScope,
            MetricCounter.PersistenceSampledCounter) ∧
      (∃ asked, (recordStartedAll env p requests).2.tokenRequests = p.tokenRequests ++ asked ∧
        asked.length = requests.length ∧
        ∀ t ∈ asked, t.priority = 0 ∧ t.count = 1 ∧
          t.rateLimiter = (getRateLimiter p.rateLimitersForOpen tenant numOfPriorityForOpen
            (env.VisibilityOpenMaxQPS tenant)).1 ∧
          (recordStartedAll env p requests).2.rateLimitersForOpen.mappings.get tenant =
            some t.rateLimiter) := by
  induction requests with
  | nil =>
    intro p decisions _ hlen _ _
    have : decisions = [] := List.eq_nil_of_length_eq_zero hlen
    subst this
    exact ⟨rfl, ⟨[], by simp [recordStartedAll], rfl, by simp⟩, by simp [recordStartedAll],
      ⟨[], by simp [recordStartedAll], rfl, by simp⟩⟩
  | cons r rest ih =>
    intro p decisions htenant hlen hdec hdown
    obtain ⟨d, ds, rfl⟩ : ∃ d ds, decisions = d :: ds := by
      cases decisions with
      | nil => simp at hlen
      | cons d ds => exact ⟨d, ds, rfl⟩
    have hlen' : ds.length = rest.length := by simpa using hlen
    have hdom : r.Domain = tenant := htenant r (List.mem_cons_self _ _)
    obtain ⟨hres, hopen, -, htok, hpers, hcnt⟩ := RecordWorkflowExecutionStarted_step env p r
    rw [hdom] at hopen htok
    have hadm : openAdmission env p r = d := by
      have := hdec 0 (by simp)
      simpa [openAdmission, hdom] using this
    have hsame : (getRateLimiter (RecordWorkflowExecutionStarted env p r).2.rateLimitersForOpen
        tenant numOfPriorityForOpen (env.VisibilityOpenMaxQPS tenant)).1 =
        (getRateLimiter p.rateLimitersForOpen tenant numOfPriorityForOpen
          (env.VisibilityOpenMaxQPS tenant)).1 := by
      rw [hopen, getRateLimiter_again]
    obtain ⟨ih1, ⟨fw, ihfw, ihfwlen, ihfwmem⟩, ih3, ⟨asked, ihask, ihasklen, ihaskall⟩⟩ :=
      ih (RecordWorkflowExecutionStarted env p r).2 ds
        (fun r' hr' => htenant r' (List.mem_cons_of_mem _ hr')) hlen'
        (by
          intro i hi
          have := hdec (i + 1) (by simpa using hi)
          rw [hsame, htok]
          simpa [Nat.add_assoc, Nat.add_comm 1] using this)
        hdown
    rw [recordStartedAll_cons]
    refine ⟨?_, ?_, ?_, ?_⟩
    · simp only [ih1, hres, hdown, ite_self, List.length_cons, List.replicate_succ]
    · refine ⟨(if d then [PersistenceCall.Started r] else []) ++ fw, ?_, ?_, ?_⟩
      · simp only [ihfw, hpers, hadm, List.append_assoc]
      · cases d <;> simp [ihfwlen, List.count_cons]
      · intro call hcall
        rcases List.mem_append.1 hcall with h1 | h1
        · cases d
          · simp at h1
          · simp only [if_true, List.mem_singleton] at h1
            exact ⟨r, List.mem_cons_self _ _, h1⟩
        · obtain ⟨r', hr', e⟩ := ihfwmem call h1
          exact ⟨r', List.mem_cons_of_mem _ hr', e⟩
    · simp only [ih3, hcnt, hadm]
      cases d <;> simp [List.count_cons, List.replicate_succ]
    · refine ⟨TokenRequest.mk (getRateLimiter p.rateLimitersForOpen tenant
          numOfPriorityForOpen (env.VisibilityOpenMaxQPS tenant)).1 0 1 :: asked, ?_, ?_, ?_⟩
      · simp only [ihask, htok, List.append_assoc, List.singleton_append]
      · simp [ihasklen]
      · intro t ht
        rcases List.mem_cons.1 ht with h1 | h1
        · subst h1
          refine ⟨rfl, rfl, rfl, ?_⟩
          apply recordStartedAll_keeps_open
          rw [hopen]
          exact getRateLimiter_cached _ _ _ _
        · obtain ⟨h2, h3, h4, h5⟩ := ihaskall t h1
          exact ⟨h2, h3, h4.trans hsame, h5⟩

/-- C8: `getRequestPriority` is 1 exactly for the status `Completed` and 0 for
every other status.  A closed-class write asks for one token at that priority
on the limiter `getRateLimiter` returns for `numOfPriorityForClosed = 2`
levels, and the priority is one of the levels 0 and 1.  When every limiter of
the closed-class map has 2 levels, as in a new client, the limiter asked has 2
levels, and both gated writes keep the map that way. -/
theorem closed_write_priority :
    (∀ request : RecordWorkflowExecutionClosedRequest,
      (getRequestPriority request = 1 ↔
        request.Status = WorkflowExecutionCloseStatus.Completed) ∧
      (request.Status ≠ WorkflowExecutionCloseStatus.Completed →
        getRequestPriority request = 0) ∧
      0 ≤ getRequestPriority request ∧ getRequestPriority request < numOfPriorityForClosed) ∧
    (∀ (env : SamplingEnv) (p : visibilitySamplingClient)
        (request : RecordWorkflowExecutionClosedRequest),
      (RecordWorkflowExecutionClosed env p request).2.tokenRequests =
        p.tokenRequests ++ [TokenRequest.mk
          (getRateLimiter p.rateLimitersForClosed request.Domain 2
            (env.VisibilityClosedMaxQPS request.Domain)).1 (getRequestPriority request) 1] ∧
      (closedLevelsOk p = true →
        (getRateLimiter p.rateLimitersForClosed request.Domain 2
          (env.VisibilityClosedMaxQPS request.Domain)).1.numOfPriority = 2 ∧
        closedLevelsOk (RecordWorkflowExecutionClosed env p request).2 = true)) ∧
    closedLevelsOk NewVisibilitySamplingClient = true ∧
    (∀ (env : SamplingEnv) (p : visibilitySamplingClient)
        (request : RecordWorkflowExecutionStartedRequest),
      closedLevelsOk p = true →
        closedLevelsOk (RecordWorkflowExecutionStarted env p request).2 = true) := by
  refine ⟨?_, ?_, by decide, ?_⟩
  · intro request
    unfold getRequestPriority numOfPriorityForClosed
    by_cases h : request.Status = WorkflowExecutionCloseStatus.Completed <;> simp [h]
  · intro env p request
    have htok : (RecordWorkflowExecutionClosed env p request).2.tokenRequests =
        p.tokenRequests ++ [TokenRequest.mk
          (getRateLimiter p.rateLimitersForClosed request.Domain numOfPriorityForClosed
            (env.VisibilityClosedMaxQPS request.Domain)).1 (getRequestPriority request) 1] := by
      cases h : closedAdmission env p request with
      | true => rw [RecordWorkflowExecutionClosed_admitted env p request h]
      | false => rw [RecordWorkflowExecutionClosed_denied env p request h]
    have hmap : (RecordWorkflowExecutionClosed env p request).2.rateLimitersForClosed =
        (getRateLimiter p.rateLimitersForClosed request.Domain numOfPriorityForClosed
          (env.VisibilityClosedMaxQPS request.Domain)).2 := by
      cases h : closedAdmission env p request with
      | true => rw [RecordWorkflowExecutionClosed_admitted env p request h]
      | false => rw [RecordWorkflowExecutionClosed_denied env p request h]
    refine ⟨htok, ?_⟩
    intro hok
    have hm : ∀ kv ∈ p.rateLimitersForClosed.mappings,
        kv.2.numOfPriority = numOfPriorityForClosed := by
      simpa [closedLevelsOk] using hok
    obtain ⟨h1, h2⟩ := getRateLimiter_levels p.rateLimitersForClosed request.Domain
      numOfPriorityForClosed (env.VisibilityClosedMaxQPS request.Domain) hm
    refine ⟨h1, ?_⟩
    simp only [closedLevelsOk, hmap, List.all_eq_true, decide_eq_true_eq]
    exact h2
  · intro env p request hok
    have hmap := (RecordWorkflowExecutionStarted_step env p request).2.2.1
    simpa [closedLevelsOk, hmap] using hok

/-! ## The redirect loop: the claims at sample inputs -/

/-- Two redirects with a nil context and a callee that answers by the host
called: `hostA` names `hostB`, `hostB` names `hostC`, `hostC` succeeds.  Three
calls, against the cached handles of the three hosts, and nil. -/
theorem executeWithRedirect_follows_redirects_witness :
    sampleClient.thriftCache.get (sampleOwners 0) = some sampleHandle ∧
    sampleHostOp 0 (heldAt sampleClient sampleHandle sampleOwners 0).1 =
      some (.ShardOwnershipLostError (some (sampleOwners 1))) ∧
    sampleHostOp 1 (heldAt sampleClient sampleHandle sampleOwners 1).1 =
      some (.ShardOwnershipLostError (some (sampleOwners 2))) ∧
    sampleHostOp 2 (heldAt sampleClient sampleHandle sampleOwners 2).1 = none ∧
    sampleHostOp 2 sampleHandle ≠ none ∧
    ∃ run, executeWithRedirect 3 sampleClient none sampleHandle sampleHostOp = some run ∧
      run.outcome = .returned none ∧
      run.calls.length = 2 + 1 ∧
      (∀ i, i ≤ 2 → run.calls[i]? = some (heldAt sampleClient sampleHandle sampleOwners i).1) ∧
      (∀ i, i ≤ 2 → run.calls[i]? = run.client.thriftCache.get (sampleOwners i)) ∧
      run.calls[0]? = some sampleHandle ∧
      run.client.cacheLookups =
        sampleClient.cacheLookups ++ (List.range 2).map (fun i => sampleOwners (i + 1)) :=
  ⟨by decide, by decide, by decide, by decide, by decide,
   executeWithRedirect_follows_redirects 2 sampleOwners 3 sampleClient none sampleHandle
    sampleHostOp (by decide) (fun _ _ => rfl)
    (fun i hi => by
      have h2 : i < 2 := hi
      interval_cases i <;> decide)
    (by decide) (by decide)⟩

/-- An expired context: no call, `DeadlineExceeded`. -/
theorem executeWithRedirect_invalid_context_witness :
    sampleExpiredContext.IsValid 0 = some .DeadlineExceeded ∧
    executeWithRedirect (0 + 1) sampleClient (some sampleExpiredContext) sampleHandle
        sampleRedirectOp =
      some { outcome := .returned (some (.contextError .DeadlineExceeded)), calls := [],
             client := sampleClient } :=
  ⟨rfl, executeWithRedirect_invalid_context 0 sampleClient sampleExpiredContext sampleHandle
    sampleRedirectOp .DeadlineExceeded rfl⟩

/-- One redirect and then `EntityNotExistsError`: the second call is the last,
its error is returned, and the cache was looked up once. -/
theorem executeWithRedirect_other_error_terminal_witness :
    redirectLoop Context.Background sampleFailingOp (0 + 1) sampleClient
        ⟨1, "hostB:7934"⟩ [sampleHandle] =
      some { outcome := .returned (some (.other "EntityNotExistsError")),
             calls := [sampleHandle] ++ [⟨1, "hostB:7934"⟩], client := sampleClient } ∧
    ∃ run, executeWithRedirect 2 sampleClient none sampleHandle sampleFailingOp = some run ∧
      run.outcome = .returned (some (.other "EntityNotExistsError")) ∧
      run.calls.length = 1 + 1 ∧
      run.client.cacheLookups.length = sampleClient.cacheLookups.length + 1 :=
  ⟨executeWithRedirect_other_error_terminal.1 Context.Background sampleFailingOp 0 sampleClient
      ⟨1, "hostB:7934"⟩ [sampleHandle] (.other "EntityNotExistsError") rfl (by decide) rfl,
   ⟨{ outcome := .returned (some (.other "EntityNotExistsError")),
      calls := [sampleHandle, ⟨1, "hostB:7934"⟩],
      client := (getThriftClient sampleClient "hostB:7934").2 },
    by decide,
    executeWithRedirect_other_error_terminal.2 2 sampleClient none sampleHandle sampleFailingOp
      _ 1 ⟨1, "hostB:7934"⟩ (.other "EntityNotExistsError") (by decide) (by decide)
      (by decide) rfl⟩⟩

/-- A host that keeps redirecting and a context that expires after the first
call: the caller gets `DeadlineExceeded`, not the ownership-lost error. -/
theorem executeWithRedirect_never_returns_ownership_lost_witness :
    ∃ run, executeWithRedirect 5 sampleClient (some sampleExpiringContext) sampleHandle
        sampleBouncingOp = some run ∧
      run.outcome = .returned (some (.contextError .DeadlineExceeded)) ∧
      (∀ o, some (Error.contextError .DeadlineExceeded) ≠ some (.ShardOwnershipLostError o)) ∧
      ((∃ h, run.calls.getLast? = some h ∧
          sampleBouncingOp (run.calls.length - 1) h =
            some (.contextError .DeadlineExceeded) ∧
          ∀ e, some (Error.contextError .DeadlineExceeded) = some e →
            e.isShardOwnershipLost = false) ∨
       (∃ ce, some (Error.contextError .DeadlineExceeded) = some (.contextError ce) ∧
          (effectiveContext (some sampleExpiringContext)).IsValid run.calls.length = some ce)) :=
  ⟨{ outcome := .returned (some (.contextError .DeadlineExceeded)),
     calls := [sampleHandle],
     client := (getThriftClient sampleClient "hostB:7934").2 },
   by decide, rfl,
   executeWithRedirect_never_returns_ownership_lost 5 sampleClient (some sampleExpiringContext)
     sampleHandle sampleBouncingOp _ _ (by decide) rfl⟩

/-! ## The connection cache: the claims at sample inputs -/

/-- On a cache that holds `hostA` only: a request for `hostB` calls the
factory, leaves the entry of `hostA` alone, and a request for `hostB` made
after requests for `hostC` and `hostA` returns the same handle. -/
theorem getThriftClient_get_or_create_witness :
    (getThriftClient sampleClient "hostB:7934").2.factoryCalls =
      sampleClient.factoryCalls ++ ["hostB:7934"] ∧
    (getThriftClient sampleClient "hostA:7934").1 = sampleHandle ∧
    (getThriftClient sampleClient "hostB:7934").2.thriftCache.get "hostA:7934" =
      sampleClient.thriftCache.get "hostA:7934" ∧
    (getThriftClient (getThriftClients (getThriftClient sampleClient "hostB:7934").2
        ["hostC:7934", "hostA:7934"]) "hostB:7934").1 =
      (getThriftClient sampleClient "hostB:7934").1 :=
  ⟨(getThriftClient_get_or_create sampleClient "hostB:7934").1,
   (getThriftClient_get_or_create sampleClient "hostA:7934").2.1 sampleHandle (by decide),
   (getThriftClient_get_or_create sampleClient "hostB:7934").2.2.2.1 "hostA:7934" (by decide),
   ((getThriftClient_get_or_create sampleClient "hostB:7934").2.2.2.2
     ["hostC:7934", "hostA:7934"]).1⟩

/-- Three callers ask for `hostB`, all three miss at the first read, then
caller 2, caller 0 and caller 1 take the lock in turn: one factory call, and
the three hold the handle with serial 1. -/
theorem getThriftClient_concurrent_first_requests_witness :
    sampleClient.thriftCache.get "hostB:7934" = none ∧
    allDone (runSchedule "hostB:7934" (firstRequests sampleClient 3) [0, 1, 2, 2, 0, 1]) = true ∧
    (runSchedule "hostB:7934" (firstRequests sampleClient 3) [0, 1, 2, 2, 0, 1]).c.factoryCalls =
      sampleClient.factoryCalls ++ ["hostB:7934"] ∧
    ∃ h, (runSchedule "hostB:7934" (firstRequests sampleClient 3) [0, 1, 2, 2, 0, 1]).threads =
        List.replicate 3 (.done h) ∧
      (runSchedule "hostB:7934" (firstRequests sampleClient 3)
        [0, 1, 2, 2, 0, 1]).c.thriftCache.get "hostB:7934" = some h :=
  ⟨by decide,
   (getThriftClient_concurrent_first_requests sampleClient "hostB:7934" 3 [0, 1, 2, 2, 0, 1]
     (by decide) (by decide)).2 (by decide),
   (getThriftClient_concurrent_first_requests sampleClient "hostB:7934" 3 [0, 1, 2, 2, 0, 1]
     (by decide) (by decide)).1 (by decide)⟩

/-- The interleaving of the three callers, evaluated. -/
theorem runSchedule_sample :
    (runSchedule "hostB:7934" (firstRequests sampleClient 3) [0, 1, 2, 2, 0, 1]) =
  { c := { thriftCache := [("hostB:7934", ⟨1, "hostB:7934"⟩), ("hostA:7934", ⟨0, "hostA:7934"⟩)],
           factoryCalls := ["hostA:7934", "hostB:7934"],
           cacheLookups := ["hostA:7934", "hostB:7934", "hostB:7934", "hostB:7934"] },
    threads := [.done ⟨1, "hostB:7934"⟩, .done ⟨1, "hostB:7934"⟩, .done ⟨1, "hostB:7934"⟩] } := by
  decide

/-- Admit, deny, admit on a new sampling client, evaluated. -/
theorem recordStartedAll_sample :
    recordStartedAll sampleSamplingEnv NewVisibilitySamplingClient
      [sampleStarted "wf-0", sampleStarted "wf-1", sampleStarted "wf-2"] =
  ([none, none, none],
   { rateLimitersForOpen := { mappings := [("domainA", ⟨0, 1, 300⟩)], bucketsMade := [⟨0, 1, 300⟩] },
     rateLimitersForClosed := { mappings := [], bucketsMade := [] },
     tokenRequests := [⟨⟨0, 1, 300⟩, 0, 1⟩, ⟨⟨0, 1, 300⟩, 0, 1⟩, ⟨⟨0, 1, 300⟩, 0, 1⟩],
     persistenceCalls := [.Started (sampleStarted "wf-0"), .Started (sampleStarted "wf-2")],
     counters := [(.PersistenceRecordWorkflowExecutionStartedScope, .PersistenceSampledCounter)],
     logs := [.testConfig "history.historyVisibilityOpenMaxQPS" 300,
              .testConfig "history.historyVisibilityOpenMaxQPS" 300,
              .openWorkflowSampled "domainA" "wf-1" "run-1" "sampleWorkflow",
              .testConfig "history.historyVisibilityOpenMaxQPS" 300] }) := by
  decide

/-! ## The visibility sampling client: the claims at sample inputs -/

/-- The second `GetToken` call is denied: the open-class and the closed-class
write both return nil, forward nothing and count one sampled write. -/
theorem gated_write_denied_returns_success_witness :
    (openAdmission sampleSamplingEnv sampleSamplingClient (sampleStarted "wf-1") = false ∧
      (RecordWorkflowExecutionStarted sampleSamplingEnv sampleSamplingClient
        (sampleStarted "wf-1")).1 = none ∧
      (RecordWorkflowExecutionStarted sampleSamplingEnv sampleSamplingClient
        (sampleStarted "wf-1")).2.persistenceCalls = sampleSamplingClient.persistenceCalls ∧
      (RecordWorkflowExecutionStarted sampleSamplingEnv sampleSamplingClient
        (sampleStarted "wf-1")).2.counters =
        [(MetricScope.PersistenceRecordWorkflowExecutionStartedScope,
          MetricCounter.PersistenceSampledCounter)]) ∧
    (closedAdmission sampleSamplingEnv sampleSamplingClient
        (sampleClosed .Completed) = false ∧
      (RecordWorkflowExecutionClosed sampleSamplingEnv sampleSamplingClient
        (sampleClosed .Completed)).1 = none ∧
      (RecordWorkflowExecutionClosed sampleSamplingEnv sampleSamplingClient
        (sampleClosed .Completed)).2.persistenceCalls = sampleSamplingClient.persistenceCalls ∧
      (RecordWorkflowExecutionClosed sampleSamplingEnv sampleSamplingClient
        (sampleClosed .Completed)).2.counters =
        [(MetricScope.PersistenceRecordWorkflowExecutionClosedScope,
          MetricCounter.PersistenceSampledCounter)]) :=
  ⟨⟨by decide,
    (gated_write_denied_returns_success.1 sampleSamplingEnv sampleSamplingClient
      (sampleStarted "wf-1") (by decide)).1,
    (gated_write_denied_returns_success.1 sampleSamplingEnv sampleSamplingClient
      (sampleStarted "wf-1") (by decide)).2.1,
    (gated_write_denied_returns_success.1 sampleSamplingEnv sampleSamplingClient
      (sampleStarted "wf-1") (by decide)).2.2.1⟩,
   ⟨by decide,
    (gated_write_denied_returns_success.2 sampleSamplingEnv sampleSamplingClient
      (sampleClosed .Completed) (by decide)).1,
    (gated_write_denied_returns_success.2 sampleSamplingEnv sampleSamplingClient
      (sampleClosed .Completed) (by decide)).2.1,
    (gated_write_denied_returns_success.2 sampleSamplingEnv sampleSamplingClient
      (sampleClosed .Completed) (by decide)).2.2.1⟩⟩

/-- The first `GetToken` call is granted: the open-class and the closed-class
write both forward the request once and count nothing. -/
theorem gated_write_admitted_forwards_witness :
    (openAdmission sampleSamplingEnv NewVisibilitySamplingClient (sampleStarted "wf-0") = true ∧
      (RecordWorkflowExecutionStarted sampleSamplingEnv NewVisibilitySamplingClient
        (sampleStarted "wf-0")).1 = none ∧
      (RecordWorkflowExecutionStarted sampleSamplingEnv NewVisibilitySamplingClient
        (sampleStarted "wf-0")).2.persistenceCalls =
        [PersistenceCall.Started (sampleStarted "wf-0")] ∧
      (RecordWorkflowExecutionStarted sampleSamplingEnv NewVisibilitySamplingClient
        (sampleStarted "wf-0")).2.counters = []) ∧
    (closedAdmission sampleSamplingEnv NewVisibilitySamplingClient
        (sampleClosed .Failed) = true ∧
      (RecordWorkflowExecutionClosed sampleSamplingEnv NewVisibilitySamplingClient
        (sampleClosed .Failed)).1 = none ∧
      (RecordWorkflowExecutionClosed sampleSamplingEnv NewVisibilitySamplingClient
        (sampleClosed .Failed)).2.persistenceCalls =
        [PersistenceCall.Closed (sampleClosed .Failed)] ∧
      (RecordWorkflowExecutionClosed sampleSamplingEnv NewVisibilitySamplingClient
        (sampleClosed .Failed)).2.counters = []) :=
  ⟨⟨by decide,
    gated_write_admitted_forwards.1 sampleSamplingEnv NewVisibilitySamplingClient
      (sampleStarted "wf-0") (by decide)⟩,
   ⟨by decide,
    gated_write_admitted_forwards.2 sampleSamplingEnv NewVisibilitySamplingClient
      (sampleClosed .Failed) (by decide)⟩⟩

/-- Admit, deny, admit, by a limiter that would deny a request for two tokens:
three writes of `domainA` return nil, two are forwarded and one is counted as
sampled. -/
theorem open_writes_follow_admission_witness :
    sampleStrictEnv.GetToken 0 { serial := 0, numOfPriority := 1, qps := 300 } 0 2 = false ∧
    (recordStartedAll sampleStrictEnv NewVisibilitySamplingClient
      [sampleStarted "wf-0", sampleStarted "wf-1", sampleStarted "wf-2"]).1 =
      List.replicate 3 none ∧
    (∃ forwarded, (recordStartedAll sampleStrictEnv NewVisibilitySamplingClient
        [sampleStarted "wf-0", sampleStarted "wf-1", sampleStarted "wf-2"]).2.persistenceCalls =
        [] ++ forwarded ∧
      forwarded.length = [true, false, true].count true ∧
      ∀ call ∈ forwarded,
        ∃ r ∈ [sampleStarted "wf-0", sampleStarted "wf-1", sampleStarted "wf-2"],
          call = PersistenceCall.Started r) ∧
    (recordStartedAll sampleStrictEnv NewVisibilitySamplingClient
      [sampleStarted "wf-0", sampleStarted "wf-1", sampleStarted "wf-2"]).2.counters =
      [] ++ List.replicate ([true, false, true].count false)
        (MetricScope.PersistenceRecordWorkflowExecutionStartedScope,
          MetricCounter.PersistenceSampledCounter) ∧
    (∃ asked, (recordStartedAll sampleStrictEnv NewVisibilitySamplingClient
        [sampleStarted "wf-0", sampleStarted "wf-1", sampleStarted "wf-2"]).2.tokenRequests =
        [] ++ asked ∧
      asked.length = 3 ∧
      ∀ t ∈ asked, t.priority = 0 ∧ t.count = 1 ∧
        t.rateLimiter = (getRateLimiter NewVisibilitySamplingClient.rateLimitersForOpen
          "domainA" numOfPriorityForOpen (sampleStrictEnv.VisibilityOpenMaxQPS "domainA")).1 ∧
        (recordStartedAll sampleStrictEnv NewVisibilitySamplingClient
          [sampleStarted "wf-0", sampleStarted "wf-1",
            sampleStarted "wf-2"]).2.rateLimitersForOpen.mappings.get "domainA" =
          some t.rateLimiter) :=
  ⟨by decide,
   open_writes_follow_admission sampleStrictEnv "domainA"
    [sampleStarted "wf-0", sampleStarted "wf-1", sampleStarted "wf-2"]
    NewVisibilitySamplingClient [true, false, true]
    (by decide) rfl
    (by
      intro i hi
      have hi3 : i < 3 := hi
      interval_cases i <;> decide)
    (fun _ _ => rfl)⟩

/-- A `Completed` write on the sample client asks at priority 1, a `Failed`
one at priority 0, and the limiter asked has two levels. -/
theorem closed_write_priority_witness :
    getRequestPriority (sampleClosed .Completed) = 1 ∧
    getRequestPriority (sampleClosed .Failed) = 0 ∧
    closedLevelsOk sampleSamplingClient = true ∧
    (getRateLimiter sampleSamplingClient.rateLimitersForClosed (sampleClosed .Failed).Domain 2
      (sampleSamplingEnv.VisibilityClosedMaxQPS (sampleClosed .Failed).Domain)).1.numOfPriority
      = 2 ∧
    closedLevelsOk (RecordWorkflowExecutionClosed sampleSamplingEnv sampleSamplingClient
      (sampleClosed .Failed)).2 = true :=
  ⟨(closed_write_priority.1 (sampleClosed .Completed)).1.2 rfl,
   (closed_write_priority.1 (sampleClosed .Failed)).2.1 (by decide),
   closed_write_priority.2.2.2 sampleSamplingEnv NewVisibilitySamplingClient
     (sampleStarted "wf-0") closed_write_priority.2.2.1,
   (closed_write_priority.2.1 sampleSamplingEnv sampleSamplingClient (sampleClosed .Failed)).2
     (by decide)⟩

/-! ## Routing: lemmas -/

theorem resolveByKey_error (env : RoutingEnv) (d : Dispatcher) (key : String) (err : Error)
    (h : env.Lookup d.lookupKeys.length key = .error err) :
    resolveByKey env d key = .failed err { d with lookupKeys := d.lookupKeys ++ [key] } := by
  simp only [resolveByKey, h]

theorem resolveByKey_ok (env : RoutingEnv) (d : Dispatcher) (key address : String)
    (h : env.Lookup d.lookupKeys.length key = .ok address) :
    resolveByKey env d key =
      .resolved (getThriftClient d.c address).1
        { c := (getThriftClient d.c address).2, lookupKeys := d.lookupKeys ++ [key],
          hashedIDs := d.hashedIDs } := by
  simp only [resolveByKey, h]

theorem getHostForRequest_error (env : RoutingEnv) (d : Dispatcher) (workflowID : String)
    (err : Error)
    (h : env.Lookup d.lookupKeys.length
      (stringOfInt (WorkflowIDToHistoryShard env.hash workflowID env.numberOfShards)) =
        .error err) :
    getHostForRequest env d workflowID =
      (.error err,
       { c := d.c,
         lookupKeys := d.lookupKeys ++
           [stringOfInt (WorkflowIDToHistoryShard env.hash workflowID env.numberOfShards)],
         hashedIDs := d.hashedIDs ++ [workflowID] }) := by
  simp only [getHostForRequest, h]

theorem getHostForRequest_ok (env : RoutingEnv) (d : Dispatcher) (workflowID address : String)
    (h : env.Lookup d.lookupKeys.length
      (stringOfInt (WorkflowIDToHistoryShard env.hash workflowID env.numberOfShards)) =
        .ok address) :
    getHostForRequest env d workflowID =
      (.ok (getThriftClient d.c address).1,
       { c := (getThriftClient d.c address).2,
         lookupKeys := d.lookupKeys ++
           [stringOfInt (WorkflowIDToHistoryShard env.hash workflowID env.numberOfShards)],
         hashedIDs := d.hashedIDs ++ [workflowID] }) := by
  simp only [getHostForRequest, h]
theorem resolveByKey_lookedUp (env : RoutingEnv) (d : Dispatcher) (key : String) :
    lookedUp env d key (resolveByKey env d key) ∧
      (resolveByKey env d key).dispatcher.hashedIDs = d.hashedIDs := by
  cases h : env.Lookup d.lookupKeys.length key with
  | error err =>
    rw [resolveByKey_error env d key err h]
    exact ⟨⟨rfl, Or.inl ⟨err, h, rfl⟩⟩, rfl⟩
  | ok address =>
    rw [resolveByKey_ok env d key address h]
    exact ⟨⟨rfl, Or.inr ⟨address, h, rfl⟩⟩, rfl⟩

theorem resolveByWorkflowID_lookedUp (env : RoutingEnv) (d : Dispatcher) (workflowID : String) :
    lookedUp env d
        (stringOfInt (WorkflowIDToHistoryShard env.hash workflowID env.numberOfShards))
        (resolveByWorkflowID env d workflowID) ∧
      (resolveByWorkflowID env d workflowID).dispatcher.hashedIDs =
        d.hashedIDs ++ [workflowID] := by
  cases h : env.Lookup d.lookupKeys.length
      (stringOfInt (WorkflowIDToHistoryShard env.hash workflowID env.numberOfShards)) with
  | error err =>
    simp only [resolveByWorkflowID, getHostForRequest_error env d workflowID err h]
    exact ⟨⟨rfl, Or.inl ⟨err, h, rfl⟩⟩, rfl⟩
  | ok address =>
    simp only [resolveByWorkflowID, getHostForRequest_ok env d workflowID address h]
    exact ⟨⟨rfl, Or.inr ⟨address, h, rfl⟩⟩, rfl⟩

theorem resolveByTaskToken_cases (env : RoutingEnv) (d : Dispatcher) (taskToken : List Nat) :
    (∃ err, env.Deserialize taskToken = .error err ∧
      resolveByTaskToken env d taskToken = .failed err d) ∨
    (∃ token, env.Deserialize taskToken = .ok token ∧
      resolveByTaskToken env d taskToken = resolveByWorkflowID env d token.WorkflowID) := by
  cases h : env.Deserialize taskToken with
  | error err => exact Or.inl ⟨err, rfl, by simp only [resolveByTaskToken, h]⟩
  | ok token => exact Or.inr ⟨token, rfl, by simp only [resolveByTaskToken, h]⟩

/-- The part before the loop makes no lookup or one, and hashes no workflow ID
or one. -/
theorem resolveHost_logs (env : RoutingEnv) (d : Dispatcher) (call : Call) :
    ((resolveHost env d call).dispatcher.lookupKeys = d.lookupKeys ∨
      ∃ key, lookedUp env d key (resolveHost env d call)) ∧
    ((resolveHost env d call).dispatcher.hashedIDs = d.hashedIDs ∨
      ∃ workflowID, (resolveHost env d call).dispatcher.hashedIDs =
        d.hashedIDs ++ [workflowID]) := by
  have hw : ∀ workflowID,
      ((resolveByWorkflowID env d workflowID).dispatcher.lookupKeys = d.lookupKeys ∨
        ∃ key, lookedUp env d key (resolveByWorkflowID env d workflowID)) ∧
      ((resolveByWorkflowID env d workflowID).dispatcher.hashedIDs = d.hashedIDs ∨
        ∃ w, (resolveByWorkflowID env d workflowID).dispatcher.hashedIDs =
          d.hashedIDs ++ [w]) := fun workflowID =>
    ⟨Or.inr ⟨_, (resolveByWorkflowID_lookedUp env d workflowID).1⟩,
     Or.inr ⟨_, (resolveByWorkflowID_lookedUp env d workflowID).2⟩⟩
  have hk : ∀ key,
      ((resolveByKey env d key).dispatcher.lookupKeys = d.lookupKeys ∨
        ∃ key', lookedUp env d key' (resolveByKey env d key)) ∧
      ((resolveByKey env d key).dispatcher.hashedIDs = d.hashedIDs ∨
        ∃ w, (resolveByKey env d key).dispatcher.hashedIDs = d.hashedIDs ++ [w]) :=
    fun key => ⟨Or.inr ⟨_, (resolveByKey_lookedUp env d key).1⟩,
      Or.inl (resolveByKey_lookedUp env d key).2⟩
  have ht : ∀ taskToken,
      ((resolveByTaskToken env d taskToken).dispatcher.lookupKeys = d.lookupKeys ∨
        ∃ key, lookedUp env d key (resolveByTaskToken env d taskToken)) ∧
      ((resolveByTaskToken env d taskToken).dispatcher.hashedIDs = d.hashedIDs ∨
        ∃ w, (resolveByTaskToken env d taskToken).dispatcher.hashedIDs =
          d.hashedIDs ++ [w]) := by
    intro taskToken
    rcases resolveByTaskToken_cases env d taskToken with ⟨err, -, h⟩ | ⟨token, -, h⟩
    · rw [h]; exact ⟨Or.inl rfl, Or.inl rfl⟩
    · rw [h]; exact hw _
  cases call with
  | DescribeHistoryHost request =>
    obtain ⟨hostAddress, shardIdForHost, executionForHost⟩ := request
    cases hostAddress with
    | some hostAddr => exact ⟨Or.inl rfl, Or.inl rfl⟩
    | none =>
      cases shardIdForHost with
      | some shardID => exact hk _
      | none =>
        cases executionForHost with
        | none => exact ⟨Or.inl rfl, Or.inl rfl⟩
        | some execution =>
          obtain ⟨workflowId, runId⟩ := execution
          cases workflowId with
          | none => exact ⟨Or.inl rfl, Or.inl rfl⟩
          | some workflowID =>
            have h1 := resolveByKey_lookedUp env
              { d with hashedIDs := d.hashedIDs ++ [workflowID] }
              (stringOfInt (WorkflowIDToHistoryShard env.hash workflowID env.numberOfShards))
            exact ⟨Or.inr ⟨_, h1.1⟩, Or.inr ⟨workflowID, h1.2⟩⟩
  | SyncShardStatus shardID => exact hk _
  | SyncActivity workflowID => exact hk _
  | RespondDecisionTaskCompleted taskToken => exact ht _
  | RespondDecisionTaskFailed taskToken => exact ht _
  | RespondActivityTaskCompleted taskToken => exact ht _
  | RespondActivityTaskFailed taskToken => exact ht _
  | RespondActivityTaskCanceled taskToken => exact ht _
  | RecordActivityTaskHeartbeat taskToken => exact ht _
  | _ => exact hw _

theorem dispatch_failed (env : RoutingEnv) (fuel : Nat) (d : Dispatcher) (ctx : Option Context)
    (call : Call) (op : Operation) (err : Error) (d' : Dispatcher)
    (h : resolveHost env d call = .failed err d') :
    dispatch env fuel d ctx call op =
      some { outcome := .returned (some err), calls := [], dispatcher := d' } := by
  simp only [dispatch, h]

theorem dispatch_resolved (env : RoutingEnv) (fuel : Nat) (d : Dispatcher)
    (ctx : Option Context) (call : Call) (op : Operation) (client : Handle) (d' : Dispatcher)
    (run : Run) (h : resolveHost env d call = .resolved client d')
    (hrun : executeWithRedirect fuel d'.c ctx client op = some run) :
    dispatch env fuel d ctx call op =
      some { outcome := run.outcome, calls := run.calls,
             dispatcher := { d' with c := run.client } } := by
  simp only [dispatch, h, hrun]

/-- The loop leaves the logs of the resolver and of the shard computation as
the part before the loop left them. -/
theorem dispatch_logs (env : RoutingEnv) (fuel : Nat) (d : Dispatcher) (ctx : Option Context)
    (call : Call) (op : Operation) (res : Dispatched)
    (h : dispatch env fuel d ctx call op = some res) :
    res.dispatcher.lookupKeys = (resolveHost env d call).dispatcher.lookupKeys ∧
    res.dispatcher.hashedIDs = (resolveHost env d call).dispatcher.hashedIDs := by
  unfold dispatch at h
  cases hr : resolveHost env d call with
  | failed err d' =>
    simp only [hr, Option.some.injEq] at h
    subst h
    exact ⟨rfl, rfl⟩
  | panicked d' =>
    simp only [hr, Option.some.injEq] at h
    subst h
    exact ⟨rfl, rfl⟩
  | resolved client d' =>
    simp only [hr] at h
    cases hrun : executeWithRedirect fuel d'.c ctx client op with
    | none => simp [hrun] at h
    | some run =>
      simp only [hrun, Option.some.injEq] at h
      subst h
      exact ⟨rfl, rfl⟩

/-- An operation whose part before the loop looks up `key`, when the resolver
fails that lookup with `err`. -/
theorem dispatch_lookup_failed (env : RoutingEnv) (fuel : Nat) (d : Dispatcher)
    (ctx : Option Context) (call : Call) (op : Operation) (key : String) (err : Error)
    (hkey : (resolveHost env d call).dispatcher.lookupKeys = d.lookupKeys ++ [key])
    (hfail : env.Lookup d.lookupKeys.length key = .error err) :
    dispatch env fuel d ctx call op =
      some { outcome := .returned (some err), calls := [],
             dispatcher := { (resolveHost env d call).dispatcher with c := d.c } } := by
  rcases (resolveHost_logs env d call).1 with hno | ⟨key', hk, hcase⟩
  · rw [hno] at hkey
    have := congrArg List.length hkey
    simp at this
  · have hkk : key' = key := by
      rw [hk] at hkey
      simpa using hkey
    subst hkk
    rcases hcase with ⟨err', hl, hr⟩ | ⟨address, hl, -⟩
    · rw [hfail] at hl
      cases hl
      exact dispatch_failed env fuel d ctx call op err _ hr
    · rw [hfail] at hl
      cases hl

theorem getHostForRequest_keeps (env : RoutingEnv) (d : Dispatcher) (workflowID b : String)
    (h : Handle) (hb : d.c.thriftCache.get b = some h) :
    (getHostForRequest env d workflowID).2.c.thriftCache.get b = some h := by
  cases hl : env.Lookup d.lookupKeys.length
      (stringOfInt (WorkflowIDToHistoryShard env.hash workflowID env.numberOfShards)) with
  | error err => rw [getHostForRequest_error env d workflowID err hl]; exact hb
  | ok address =>
    rw [getHostForRequest_ok env d workflowID address hl]
    exact getThriftClient_keeps d.c address b h hb

theorem getHostsForRequests_keeps (env : RoutingEnv) (workflowIDs : List String) :
    ∀ (d : Dispatcher) (b : String) (h : Handle), d.c.thriftCache.get b = some h →
      (getHostsForRequests env d workflowIDs).c.thriftCache.get b = some h := by
  induction workflowIDs with
  | nil => intro d b h hb; exact hb
  | cons w rest ih =>
    intro d b h hb
    exact ih _ b h (getHostForRequest_keeps env d w b h hb)

theorem resolveHost_workflowIDCalls (env : RoutingEnv) (d : Dispatcher) (workflowID : String)
    (call : Call) (hcall : call ∈ workflowIDCalls workflowID) :
    resolveHost env d call = resolveByWorkflowID env d workflowID := by
  simp only [workflowIDCalls, List.mem_cons, List.mem_singleton, List.not_mem_nil,
    or_false] at hcall
  rcases hcall with h | h | h | h | h | h | h | h | h | h | h | h | h | h | h <;>
    subst h <;> rfl

theorem resolveHost_taskTokenCalls (env : RoutingEnv) (d : Dispatcher) (taskToken : List Nat)
    (call : Call) (hcall : call ∈ taskTokenCalls taskToken) :
    resolveHost env d call = resolveByTaskToken env d taskToken := by
  simp only [taskTokenCalls, List.mem_cons, List.mem_singleton, List.not_mem_nil,
    or_false] at hcall
  rcases hcall with h | h | h | h | h | h <;> subst h <;> rfl

theorem getHostForRequest_count_cached (env : RoutingEnv) (d : Dispatcher)
    (workflowID a : String) (h : Handle) (ha : d.c.thriftCache.get a = some h) :
    (getHostForRequest env d workflowID).2.c.factoryCalls.count a =
      d.c.factoryCalls.count a := by
  cases hl : env.Lookup d.lookupKeys.length
      (stringOfInt (WorkflowIDToHistoryShard env.hash workflowID env.numberOfShards)) with
  | error err => rw [getHostForRequest_error env d workflowID err hl]
  | ok address =>
    rw [getHostForRequest_ok env d workflowID address hl]
    exact getThriftClient_count_cached d.c a address h ha

theorem getHostsForRequests_count_cached (env : RoutingEnv) (workflowIDs : List String) :
    ∀ (d : Dispatcher) (a : String) (h : Handle), d.c.thriftCache.get a = some h →
      (getHostsForRequests env d workflowIDs).c.factoryCalls.count a =
        d.c.factoryCalls.count a := by
  induction workflowIDs with
  | nil => intro d a h _; rfl
  | cons w rest ih =>
    intro d a h ha
    have := ih (getHostForRequest env d w).2 a h (getHostForRequest_keeps env d w a h ha)
    exact this.trans (getHostForRequest_count_cached env d w a h ha)

theorem getHostForRequest_logs (env : RoutingEnv) (d : Dispatcher) (workflowID : String) :
    (getHostForRequest env d workflowID).2.lookupKeys =
      d.lookupKeys ++
        [stringOfInt (WorkflowIDToHistoryShard env.hash workflowID env.numberOfShards)] ∧
    (getHostForRequest env d workflowID).2.hashedIDs = d.hashedIDs ++ [workflowID] := by
  cases hl : env.Lookup d.lookupKeys.length
      (stringOfInt (WorkflowIDToHistoryShard env.hash workflowID env.numberOfShards)) with
  | error err => rw [getHostForRequest_error env d workflowID err hl]; exact ⟨rfl, rfl⟩
  | ok address => rw [getHostForRequest_ok env d workflowID address hl]; exact ⟨rfl, rfl⟩

/-! ## Routing: claims -/

/-- C12: failures before the redirect loop end the operation.  For the six
operations routed by a task token, a deserialization error is returned with
the dispatcher unchanged: no lookup, no cache access, no underlying call.  For
every operation whose part before the loop looks up a key, an error of that
lookup is returned unchanged, with no underlying call and the client state
(cache, factory calls, cache lookups) as before; the fifteen operations routed
by a workflow ID always make that lookup, of the key of the shard. -/
theorem failures_before_loop_are_terminal (env : RoutingEnv) (fuel : Nat) (d : Dispatcher)
    (ctx : Option Context) (op : Operation) (err : Error) :
    (∀ (taskToken : List Nat) (call : Call), env.Deserialize taskToken = .error err →
      call ∈ taskTokenCalls taskToken →
      dispatch env fuel d ctx call op =
        some { outcome := .returned (some err), calls := [], dispatcher := d }) ∧
    (∀ (call : Call) (key : String),
      (resolveHost env d call).dispatcher.lookupKeys = d.lookupKeys ++ [key] →
      env.Lookup d.lookupKeys.length key = .error err →
      ∃ res, dispatch env fuel d ctx call op = some res ∧
        res.outcome = .returned (some err) ∧ res.calls = [] ∧ res.dispatcher.c = d.c ∧
        res.dispatcher.lookupKeys = d.lookupKeys ++ [key]) ∧
    (∀ (workflowID : String) (call : Call),
      call ∈ workflowIDCalls workflowID →
      env.Lookup d.lookupKeys.length
        (stringOfInt (WorkflowIDToHistoryShard env.hash workflowID env.numberOfShards)) =
          .error err →
      dispatch env fuel d ctx call op =
        some { outcome := .returned (some err), calls := [],
               dispatcher :=
                 { c := d.c,
                   lookupKeys := d.lookupKeys ++ [stringOfInt
                     (WorkflowIDToHistoryShard env.hash workflowID env.numberOfShards)],
                   hashedIDs := d.hashedIDs ++ [workflowID] } }) := by
  refine ⟨?_, ?_, ?_⟩
  · intro taskToken call hdes hcall
    have hr : resolveByTaskToken env d taskToken = .failed err d := by
      simp only [resolveByTaskToken, hdes]
    apply dispatch_failed
    rw [resolveHost_taskTokenCalls env d taskToken call hcall]
    exact hr
  · intro call key hkey hfail
    refine ⟨_, dispatch_lookup_failed env fuel d ctx call op key err hkey hfail, rfl, rfl, rfl,
      hkey⟩
  · intro workflowID call hcall hfail
    have hr : resolveByWorkflowID env d workflowID = .failed err
        { c := d.c,
          lookupKeys := d.lookupKeys ++ [stringOfInt
            (WorkflowIDToHistoryShard env.hash workflowID env.numberOfShards)],
          hashedIDs := d.hashedIDs ++ [workflowID] } := by
      simp only [resolveByWorkflowID, getHostForRequest_error env d workflowID err hfail]
    apply dispatch_failed
    rw [resolveHost_workflowIDCalls env d workflowID call hcall]
    exact hr

/-- C14: the shard index of a routing key, a hash of the key reduced modulo the
shard count `n > 0`, lies in `[0, n)`.  It is the index the dispatcher
computes: on every dispatcher state `getHostForRequest` hashes the workflow ID
once and looks up the key of exactly that index, which lies in
`[0, numberOfShards)`, so two requests with equal workflow IDs look up the same
key whatever the two states are.  With a resolver that answers every lookup of
that key with one address, `getHostForRequest` returns the handle
`getThriftClient` gives for that address, the cached one; and a second
`getHostForRequest` for the same workflow ID, made after any other
`getHostForRequest` calls, returns the identical handle, which is still the
cached handle of the address, without a factory call, the factory not having
been called for the address in between. -/
theorem same_key_same_shard_same_handle :
    (∀ (hash : String → Nat) (k : String) (n : Int), 0 < n →
      0 ≤ WorkflowIDToHistoryShard hash k n ∧ WorkflowIDToHistoryShard hash k n < n) ∧
    (∀ (env : RoutingEnv) (d : Dispatcher) (k : String),
      (getHostForRequest env d k).2.lookupKeys = d.lookupKeys ++
        [stringOfInt (WorkflowIDToHistoryShard env.hash k env.numberOfShards)] ∧
      (getHostForRequest env d k).2.hashedIDs = d.hashedIDs ++ [k] ∧
      (0 < env.numberOfShards →
        0 ≤ WorkflowIDToHistoryShard env.hash k env.numberOfShards ∧
        WorkflowIDToHistoryShard env.hash k env.numberOfShards < env.numberOfShards)) ∧
    (∀ (env : RoutingEnv) (d1 d2 : Dispatcher) (k1 k2 : String), k1 = k2 →
      (getHostForRequest env d1 k1).2.lookupKeys.getLast? =
        (getHostForRequest env d2 k2).2.lookupKeys.getLast? ∧
      (getHostForRequest env d1 k1).2.lookupKeys.getLast? =
        some (stringOfInt (WorkflowIDToHistoryShard env.hash k1 env.numberOfShards))) ∧
    (∀ (env : RoutingEnv) (d : Dispatcher) (k address : String) (others : List String),
      (∀ i, env.Lookup i
        (stringOfInt (WorkflowIDToHistoryShard env.hash k env.numberOfShards)) = .ok address) →
      getHostForRequest env d k =
        (.ok (getThriftClient d.c address).1,
         { c := (getThriftClient d.c address).2,
           lookupKeys := d.lookupKeys ++
             [stringOfInt (WorkflowIDToHistoryShard env.hash k env.numberOfShards)],
           hashedIDs := d.hashedIDs ++ [k] }) ∧
      (getHostForRequest env d k).2.c.thriftCache.get address =
        some (getThriftClient d.c address).1 ∧
      (getHostForRequest env
        (getHostsForRequests env (getHostForRequest env d k).2 others) k).1 =
          .ok (getThriftClient d.c address).1 ∧
      (getHostForRequest env
        (getHostsForRequests env (getHostForRequest env d k).2 others) k).2.c.thriftCache.get
          address = some (getThriftClient d.c address).1 ∧
      (getHostForRequest env
        (getHostsForRequests env (getHostForRequest env d k).2 others) k).2.c.factoryCalls =
          (getHostsForRequests env (getHostForRequest env d k).2 others).c.factoryCalls ∧
      (getHostsForRequests env (getHostForRequest env d k).2 others).c.factoryCalls.count
          address = (getHostForRequest env d k).2.c.factoryCalls.count address) := by
  have hbound : ∀ (hash : String → Nat) (k : String) (n : Int), 0 < n →
      0 ≤ WorkflowIDToHistoryShard hash k n ∧ WorkflowIDToHistoryShard hash k n < n := by
    intro hash k n hn
    unfold WorkflowIDToHistoryShard
    exact ⟨Int.emod_nonneg _ (ne_of_gt hn), Int.emod_lt_of_pos _ hn⟩
  refine ⟨hbound, ?_, ?_, ?_⟩
  · intro env d k
    exact ⟨(getHostForRequest_logs env d k).1, (getHostForRequest_logs env d k).2,
      hbound env.hash k env.numberOfShards⟩
  · intro env d1 d2 k1 k2 h
    subst h
    rw [(getHostForRequest_logs env d1 k1).1, (getHostForRequest_logs env d2 k1).1]
    simp
  · intro env d k address others hstable
    have hfirst := getHostForRequest_ok env d k address (hstable _)
    have hcached : (getHostForRequest env d k).2.c.thriftCache.get address =
        some (getThriftClient d.c address).1 := by
      rw [hfirst]
      exact getThriftClient_cached d.c address
    have hlater := getHostsForRequests_keeps env others _ address _ hcached
    have hsecond := getHostForRequest_ok env
      (getHostsForRequests env (getHostForRequest env d k).2 others) k address (hstable _)
    have hhit := getThriftClient_hit _ address _ hlater
    refine ⟨hfirst, hcached, ?_, ?_, ?_,
      getHostsForRequests_count_cached env others _ address _ hcached⟩
    · rw [hsecond, hhit]
    · rw [hsecond, hhit]
      exact hlater
    · rw [hsecond, hhit]

/-- C16, as the code has it: the resolver is consulted before the loop only,
and at most once.  For every operation and every finished run, whatever the
number of redirects, the log of resolver lookups and the log of shard
computations are as the part before the loop left them, with at most one
entry more than before the operation.  That part makes exactly one lookup, of
the key named here and with the result of that lookup, for the fifteen
operations routed by a workflow ID and the six routed by a task token that
deserializes (the key of the shard of the workflow ID, hashed once), for
`SyncShardStatus` (the key of the shard id), for `SyncActivity` (the workflow
ID) and for `DescribeHistoryHost` without a host address (the key of the shard
id, or of the shard of the execution).  It makes no lookup for
`DescribeHistoryHost` with a host address, for a task token that does not
deserialize, and when `DescribeHistoryHost` finds neither host, shard nor
workflow ID; and every operation is one of these.  When the part before the
loop has resolved the cached handle of `A 0` and the calls, each against the
handle held then, redirect `r` times, naming `A 1`, ..., `A r`, and then
succeed: the operation makes `r + 1` calls, call `i` against the cached handle
of `A i`, the cache was looked up for `A 1`, ..., `A r` and nothing else, and
the two logs are as the part before the loop left them. -/
theorem resolver_consulted_before_loop_only :
    (∀ (env : RoutingEnv) (fuel : Nat) (d : Dispatcher) (ctx : Option Context) (call : Call)
        (op : Operation) (res : Dispatched),
      dispatch env fuel d ctx call op = some res →
      res.dispatcher.lookupKeys = (resolveHost env d call).dispatcher.lookupKeys ∧
      res.dispatcher.hashedIDs = (resolveHost env d call).dispatcher.hashedIDs ∧
      (res.dispatcher.lookupKeys = d.lookupKeys ∨
        ∃ key, res.dispatcher.lookupKeys = d.lookupKeys ++ [key]) ∧
      (res.dispatcher.hashedIDs = d.hashedIDs ∨
        ∃ workflowID, res.dispatcher.hashedIDs = d.hashedIDs ++ [workflowID])) ∧
    (∀ (env : RoutingEnv) (d : Dispatcher),
      (∀ (workflowID : String) (call : Call), call ∈ workflowIDCalls workflowID →
        lookedUp env d
          (stringOfInt (WorkflowIDToHistoryShard env.hash workflowID env.numberOfShards))
          (resolveHost env d call) ∧
        (resolveHost env d call).dispatcher.hashedIDs = d.hashedIDs ++ [workflowID]) ∧
      (∀ (taskToken : List Nat) (token : TaskToken) (call : Call),
        call ∈ taskTokenCalls taskToken → env.Deserialize taskToken = .ok token →
        lookedUp env d
          (stringOfInt (WorkflowIDToHistoryShard env.hash token.WorkflowID env.numberOfShards))
          (resolveHost env d call) ∧
        (resolveHost env d call).dispatcher.hashedIDs = d.hashedIDs ++ [token.WorkflowID]) ∧
      (∀ shardID : Int,
        lookedUp env d (stringOfInt shardID) (resolveHost env d (.SyncShardStatus shardID)) ∧
        (resolveHost env d (.SyncShardStatus shardID)).dispatcher.hashedIDs = d.hashedIDs) ∧
      (∀ workflowID : String,
        lookedUp env d workflowID (resolveHost env d (.SyncActivity workflowID)) ∧
        (resolveHost env d (.SyncActivity workflowID)).dispatcher.hashedIDs = d.hashedIDs) ∧
      (∀ (request : DescribeHistoryHostRequest) (shardID : Int),
        request.HostAddress = none → request.ShardIdForHost = some shardID →
        lookedUp env d (stringOfInt shardID)
          (resolveHost env d (.DescribeHistoryHost request)) ∧
        (resolveHost env d (.DescribeHistoryHost request)).dispatcher.hashedIDs =
          d.hashedIDs) ∧
      (∀ (request : DescribeHistoryHostRequest) (execution : WorkflowExecution)
          (workflowID : String),
        request.HostAddress = none → request.ShardIdForHost = none →
        request.ExecutionForHost = some execution → execution.WorkflowId = some workflowID →
        lookedUp env d
          (stringOfInt (WorkflowIDToHistoryShard env.hash workflowID env.numberOfShards))
          (resolveHost env d (.DescribeHistoryHost request)) ∧
        (resolveHost env d (.DescribeHistoryHost request)).dispatcher.hashedIDs =
          d.hashedIDs ++ [workflowID])) ∧
    (∀ (env : RoutingEnv) (d : Dispatcher),
      (∀ (request : DescribeHistoryHostRequest) (hostAddr : String),
        request.HostAddress = some hostAddr →
        resolveHost env d (.DescribeHistoryHost request) =
          .resolved (getThriftClient d.c hostAddr).1
            { c := (getThriftClient d.c hostAddr).2, lookupKeys := d.lookupKeys,
              hashedIDs := d.hashedIDs }) ∧
      (∀ (taskToken : List Nat) (err : Error) (call : Call),
        call ∈ taskTokenCalls taskToken → env.Deserialize taskToken = .error err →
        resolveHost env d call = .failed err d) ∧
      (∀ request : DescribeHistoryHostRequest,
        request.HostAddress = none → request.ShardIdForHost = none →
        (request.ExecutionForHost = none ∨
          ∃ execution, request.ExecutionForHost = some execution ∧
            execution.WorkflowId = none) →
        resolveHost env d (.DescribeHistoryHost request) = .panicked d)) ∧
    (∀ call : Call,
      (∃ workflowID, call ∈ workflowIDCalls workflowID) ∨
      (∃ taskToken, call ∈ taskTokenCalls taskToken) ∨
      (∃ shardID, call = .SyncShardStatus shardID) ∨
      (∃ workflowID, call = .SyncActivity workflowID) ∨
      (∃ request, call = .DescribeHistoryHost request)) ∧
    (∀ (r : Nat) (A : Nat → String) (env : RoutingEnv) (fuel : Nat) (d : Dispatcher)
        (ctx : Option Context) (call : Call) (op : Operation) (client : Handle)
        (d' : Dispatcher),
      r < fuel →
      resolveHost env d call = .resolved client d' →
      d'.c.thriftCache.get (A 0) = some client →
      (∀ i, i ≤ r → (effectiveContext ctx).IsValid i = none) →
      (∀ i, i < r → op i (heldAt d'.c client A i).1 =
        some (.ShardOwnershipLostError (some (A (i + 1))))) →
      op r (heldAt d'.c client A r).1 = none →
      dispatch env fuel d ctx call op =
        some { outcome := .returned none,
               calls := (List.range (r + 1)).map (fun i => (heldAt d'.c client A i).1),
               dispatcher :=
                 { c := (heldAt d'.c client A r).2, lookupKeys := d'.lookupKeys,
                   hashedIDs := d'.hashedIDs } } ∧
      (∀ i, i ≤ r → (heldAt d'.c client A r).2.thriftCache.get (A i) =
        some (heldAt d'.c client A i).1) ∧
      (heldAt d'.c client A r).2.cacheLookups =
        d'.c.cacheLookups ++ (List.range r).map (fun i => A (i + 1))) := by
  refine ⟨?_, ?_, ?_, ?_, ?_⟩
  · intro env fuel d ctx call op res h
    obtain ⟨h1, h2⟩ := dispatch_logs env fuel d ctx call op res h
    refine ⟨h1, h2, ?_, ?_⟩
    · rw [h1]
      rcases (resolveHost_logs env d call).1 with h3 | ⟨key, h3, -⟩
      · exact Or.inl h3
      · exact Or.inr ⟨key, h3⟩
    · rw [h2]
      exact (resolveHost_logs env d call).2
  · intro env d
    refine ⟨?_, ?_, ?_, ?_, ?_, ?_⟩
    · intro workflowID call hcall
      rw [resolveHost_workflowIDCalls env d workflowID call hcall]
      exact resolveByWorkflowID_lookedUp env d workflowID
    · intro taskToken token call hcall hdes
      have hr : resolveByTaskToken env d taskToken =
          resolveByWorkflowID env d token.WorkflowID := by
        simp only [resolveByTaskToken, hdes]
      rw [resolveHost_taskTokenCalls env d taskToken call hcall, hr]
      exact resolveByWorkflowID_lookedUp env d token.WorkflowID
    · intro shardID
      exact resolveByKey_lookedUp env d (stringOfInt shardID)
    · intro workflowID
      exact resolveByKey_lookedUp env d workflowID
    · intro request shardID h1 h2
      obtain ⟨hostAddress, shardIdForHost, executionForHost⟩ := request
      simp only at h1 h2
      subst h1 h2
      exact resolveByKey_lookedUp env d (stringOfInt shardID)
    · intro request execution workflowID h1 h2 h3 h4
      obtain ⟨hostAddress, shardIdForHost, executionForHost⟩ := request
      simp only at h1 h2 h3
      subst h1 h2 h3
      obtain ⟨workflowId, runId⟩ := execution
      simp only at h4
      subst h4
      exact resolveByKey_lookedUp env { d with hashedIDs := d.hashedIDs ++ [workflowID] }
        (stringOfInt (WorkflowIDToHistoryShard env.hash workflowID env.numberOfShards))
  · intro env d
    refine ⟨?_, ?_, ?_⟩
    · intro request hostAddr h
      obtain ⟨hostAddress, shardIdForHost, executionForHost⟩ := request
      simp only at h
      subst h
      rfl
    · intro taskToken err call hcall hdes
      rw [resolveHost_taskTokenCalls env d taskToken call hcall]
      simp only [resolveByTaskToken, hdes]
    · intro request h1 h2 h3
      obtain ⟨hostAddress, shardIdForHost, executionForHost⟩ := request
      simp only at h1 h2 h3
      subst h1 h2
      rcases h3 with h3 | ⟨execution, h3, h4⟩
      · subst h3
        rfl
      · subst h3
        obtain ⟨workflowId, runId⟩ := execution
        simp only at h4
        subst h4
        rfl
  · intro call
    cases call <;> simp [workflowIDCalls, taskTokenCalls]
  · intro r A env fuel d ctx call op client d' hfuel hres hinit hctx hlost hok
    have hrun := redirectLoop_held (effectiveContext ctx) op none (by simp) r fuel d'.c client
      [] A hfuel (by simpa using hctx) (by simpa using hlost) (by simpa using hok)
    refine ⟨?_, ?_, heldAt_cacheLookups d'.c client A r⟩
    · simp only [dispatch, hres, executeWithRedirect_eq, hrun, List.nil_append]
    · intro i hi
      exact heldAt_keeps d'.c client A i r hi (A i) _ (heldAt_cached d'.c client A hinit i)

/-- C16, as stated, fails: `DescribeHistoryHost` with a host address in the
request reaches the loop and makes its call without any resolver lookup, and
`RespondDecisionTaskCompleted` with a token that does not deserialize ends
without one; in neither is the resolver consulted exactly once. -/
theorem routed_operations_without_lookup :
    dispatch sampleRoutingEnv 1 sampleDispatcher none
        (.DescribeHistoryHost sampleDescribeByHost) sampleOkOp =
      some { outcome := .returned none,
             calls := [{ serial := 1, hostPort := "hostB:7934" }],
             dispatcher :=
               { c := (getThriftClient sampleClient "hostB:7934").2,
                 lookupKeys := sampleDispatcher.lookupKeys,
                 hashedIDs := sampleDispatcher.hashedIDs } } ∧
    dispatch sampleRoutingEnv 1 sampleDispatcher none (.RespondDecisionTaskCompleted [])
        sampleOkOp =
      some { outcome := .returned (some (.other "malformed token")), calls := [],
             dispatcher := sampleDispatcher } ∧
    sampleDispatcher.lookupKeys.length ≠ sampleDispatcher.lookupKeys.length + 1 := by
  decide

/-- C17: `DescribeHistoryHost` finds its target by precedence.  With a host
address in the request, the handle is the cached handle of that address, and
no lookup and no shard computation is made.  Otherwise, with a shard id in the
request, the key of that shard id is looked up and no workflow ID is hashed.
Otherwise the workflow ID of the request's execution is hashed with the
configured shard count and the key of that shard is looked up.  In the two
lookup cases an error of the resolver is returned, with no underlying call and
the client state as before. -/
theorem DescribeHistoryHost_target_precedence (env : RoutingEnv) (d : Dispatcher)
    (request : DescribeHistoryHostRequest) :
    (∀ hostAddr, request.HostAddress = some hostAddr →
      resolveHost env d (.DescribeHistoryHost request) =
        .resolved (getThriftClient d.c hostAddr).1
          { c := (getThriftClient d.c hostAddr).2, lookupKeys := d.lookupKeys,
            hashedIDs := d.hashedIDs }) ∧
    (∀ shardID, request.HostAddress = none → request.ShardIdForHost = some shardID →
      lookedUp env d (stringOfInt shardID) (resolveHost env d (.DescribeHistoryHost request)) ∧
      (resolveHost env d (.DescribeHistoryHost request)).dispatcher.hashedIDs = d.hashedIDs) ∧
    (∀ execution workflowID, request.HostAddress = none → request.ShardIdForHost = none →
      request.ExecutionForHost = some execution → execution.WorkflowId = some workflowID →
      lookedUp env d
        (stringOfInt (WorkflowIDToHistoryShard env.hash workflowID env.numberOfShards))
        (resolveHost env d (.DescribeHistoryHost request)) ∧
      (resolveHost env d (.DescribeHistoryHost request)).dispatcher.hashedIDs =
        d.hashedIDs ++ [workflowID]) ∧
    (∀ (fuel : Nat) (ctx : Option Context) (op : Operation) (key : String) (err : Error),
      (resolveHost env d (.DescribeHistoryHost request)).dispatcher.lookupKeys =
        d.lookupKeys ++ [key] →
      env.Lookup d.lookupKeys.length key = .error err →
      dispatch env fuel d ctx (.DescribeHistoryHost request) op =
        some { outcome := .returned (some err), calls := [],
               dispatcher :=
                 { (resolveHost env d (.DescribeHistoryHost request)).dispatcher with
                   c := d.c } }) := by
  obtain ⟨hostAddress, shardIdForHost, executionForHost⟩ := request
  refine ⟨?_, ?_, ?_, ?_⟩
  · intro hostAddr h
    simp only at h
    subst h
    rfl
  · intro shardID h1 h2
    simp only at h1 h2
    subst h1 h2
    exact resolveByKey_lookedUp env d (stringOfInt shardID)
  · intro execution workflowID h1 h2 h3 h4
    simp only at h1 h2 h3
    subst h1 h2 h3
    obtain ⟨workflowId, runId⟩ := execution
    simp only at h4
    subst h4
    exact resolveByKey_lookedUp env { d with hashedIDs := d.hashedIDs ++ [workflowID] }
      (stringOfInt (WorkflowIDToHistoryShard env.hash workflowID env.numberOfShards))
  · intro fuel ctx op key err hkey hfail
    exact dispatch_lookup_failed env fuel d ctx _ op key err hkey hfail

/-- `SyncActivity` looks up the workflow ID of the request itself and computes
no shard. -/
theorem SyncActivity_lookupKeys (env : RoutingEnv) (fuel : Nat) (d : Dispatcher)
    (ctx : Option Context) (workflowID : String) (op : Operation) (res : Dispatched)
    (h : dispatch env fuel d ctx (.SyncActivity workflowID) op = some res) :
    res.dispatcher.lookupKeys = d.lookupKeys ++ [workflowID] ∧
      res.dispatcher.hashedIDs = d.hashedIDs := by
  obtain ⟨h1, h2⟩ := dispatch_logs env fuel d ctx _ op res h
  obtain ⟨⟨h3, -⟩, h4⟩ := resolveByKey_lookedUp env d workflowID
  exact ⟨h1.trans h3, h2.trans h4⟩

/-- C15: at the workflow ID `wf-1`, in a cluster of 4 shards where the shard of
`wf-1` is 0 and is owned by `hostA:7934`: `StartWorkflowExecution` hashes
`wf-1`, looks up the key of shard 0 and calls `hostA:7934`, while `SyncActivity`
hashes nothing and looks up the key `wf-1`, the workflow ID itself, which is
not the key of the shard and for which the resolver knows no owner. -/
theorem SyncActivity_passes_workflow_ID_to_resolver :
    dispatch sampleRoutingEnv 1 NewDispatcher none (.StartWorkflowExecution "wf-1") sampleOkOp =
      some { outcome := .returned none, calls := [sampleHandle],
             dispatcher := { c := sampleClient, lookupKeys := [stringOfInt 0],
                             hashedIDs := ["wf-1"] } } ∧
    dispatch sampleRoutingEnv 1 NewDispatcher none (.SyncActivity "wf-1") sampleOkOp =
      some { outcome := .returned (some (.other "no hosts for key")), calls := [],
             dispatcher := { c := NewClient, lookupKeys := ["wf-1"], hashedIDs := [] } } ∧
    "wf-1" ≠ stringOfInt
      (WorkflowIDToHistoryShard sampleRoutingEnv.hash "wf-1" sampleRoutingEnv.numberOfShards) := by
  decide

/-- C18: an ownership-lost error that names no owner (`Owner` is nil) makes
`executeWithRedirect` dereference the nil pointer at the first call: the run
ends in a panic, not in a returned error. -/
theorem executeWithRedirect_nil_owner_panics :
    executeWithRedirect 1 sampleClient none sampleHandle sampleOwnerlessOp =
      some { outcome := .panicked, calls := [sampleHandle], client := sampleClient } := by
  decide

/-! ## The timeout of a call: claims -/

/-- C13: the context `createContext` makes at the time `now` has the deadline
`min D (now + 30s)` for a parent with the deadline `D`, and `now + 30s` for a
parent without a deadline and for a nil parent; it is never later than the
parent's deadline. -/
theorem createContext_deadline (now : Int) :
    (∀ D : Int, (createContext now (some { Deadline := some D })).Deadline =
      some (min D (now + 30 * Second))) ∧
    (createContext now (some { Deadline := none })).Deadline = some (now + 30 * Second) ∧
    (createContext now none).Deadline = some (now + 30 * Second) ∧
    (∀ D t : Int, (createContext now (some { Deadline := some D })).Deadline = some t →
      t ≤ D) := by
  have key : ∀ D : Int, (createContext now (some { Deadline := some D })).Deadline =
      some (min D (now + 30 * Second)) := by
    intro D
    simp only [createContext, WithTimeout, WithDeadline]
    by_cases h : D < now + Second * 30
    · simp only [h, if_true]
      rw [min_eq_left (by linarith)]
    · simp only [h, if_false]
      rw [min_eq_right (by linarith)]
      congr 1
  refine ⟨key, ?_, ?_, ?_⟩
  · simp only [createContext, WithTimeout, WithDeadline]
    congr 1
  · simp only [createContext, WithTimeout, WithDeadline, backgroundContext]
    congr 1
  · intro D t h
    rw [key D] at h
    cases h
    exact min_le_left _ _

/-! ## The keys of the shards: claims -/

theorem Char.toNat_ofNat_of_valid (n : Nat) (h : n.isValidChar) : (Char.ofNat n).toNat = n := by
  unfold Char.ofNat
  simp only [h, dite_true]
  rfl

theorem singleton_ofNat_injective (a b : Nat) (ha : a.isValidChar) (hb : b.isValidChar)
    (h : String.singleton (Char.ofNat a) = String.singleton (Char.ofNat b)) : a = b := by
  have h1 : (String.singleton (Char.ofNat a)).data = (String.singleton (Char.ofNat b)).data :=
    congrArg String.data h
  have h2 : Char.ofNat a = Char.ofNat b := by
    simpa [String.singleton] using h1
  have h3 := congrArg Char.toNat h2
  rwa [Char.toNat_ofNat_of_valid a ha, Char.toNat_ofNat_of_valid b hb] at h3

/-- The code point whose encoding `string(v)` is, for a shard index up to 55296. -/
theorem stringOfInt_code (v : Int) (h0 : 0 ≤ v) (hv : v ≤ 55296) :
    ∃ m : Nat, m.isValidChar ∧ stringOfInt v = String.singleton (Char.ofNat m) ∧
      (v < 55296 → m = v.toNat) ∧ (v = 55296 → m = 65533) := by
  by_cases h : v < 55296
  · have hvalid : v.toNat.isValidChar := Or.inl (by omega)
    refine ⟨v.toNat, hvalid, ?_, fun _ => rfl, fun e => by omega⟩
    unfold stringOfInt
    rw [if_pos ⟨h0, hvalid⟩]
  · have e : v = 55296 := by omega
    subst e
    exact ⟨65533, by decide, by decide, fun h' => absurd h' (by decide), fun _ => rfl⟩

/-- C19, as the code has it: the keys `string(i)` of the shard indices in
`[0, n)` are pairwise different exactly when `n ≤ 55297`.  From 55298 shards
on, the indices 55296 and 55297, which are surrogate code points, both have
the key U+FFFD. -/
theorem shard_keys_distinct_iff (n : Int) :
    (∀ i j : Int, 0 ≤ i → i < n → 0 ≤ j → j < n → i ≠ j → stringOfInt i ≠ stringOfInt j) ↔
      n ≤ 55297 := by
  constructor
  · intro h
    by_contra hn
    exact h 55296 55297 (by decide) (by omega) (by decide) (by omega) (by decide) (by decide)
  · intro hn i j hi0 hin hj0 hjn hij heq
    obtain ⟨a, ha, hsa, ha1, ha2⟩ := stringOfInt_code i hi0 (by omega)
    obtain ⟨b, hb, hsb, hb1, hb2⟩ := stringOfInt_code j hj0 (by omega)
    rw [hsa, hsb] at heq
    have hab := singleton_ofNat_injective a b ha hb heq
    by_cases h1 : i < 55296
    · by_cases h2 : j < 55296
      · have := ha1 h1
        have := hb1 h2
        omega
      · have := ha1 h1
        have := hb2 (by omega)
        omega
    · by_cases h2 : j < 55296
      · have := ha2 (by omega)
        have := hb1 h2
        omega
      · omega

/-- C19, as stated, fails at 55298 shards: the distinct shard indices 55296 and
55297 have the same key. -/
theorem shard_keys_collide :
    (0 : Int) ≤ 55296 ∧ (55296 : Int) < 55298 ∧ (0 : Int) ≤ 55297 ∧ (55297 : Int) < 55298 ∧
      (55296 : Int) ≠ 55297 ∧ stringOfInt 55296 = stringOfInt 55297 := by
  decide

/-! ## The tenant-to-limiter maps: claims -/

theorem getRateLimiter_other (m : domainToBucketMap) (d d' : String) (n q : Int)
    (hne : d' ≠ d) :
    (getRateLimiter m d n q).2.mappings.get d' = m.mappings.get d' := by
  cases h : m.mappings.get d with
  | some b => rw [getRateLimiter_hit m d n q b h]
  | none => rw [getRateLimiter_miss m d n q h]; exact GoMap.get_set_ne _ _ _ _ hne

theorem getRateLimiters_keeps (calls : List (String × Int × Int)) :
    ∀ (m : domainToBucketMap) (d : String) (b : PriorityTokenBucket),
      m.mappings.get d = some b → (getRateLimiters m calls).mappings.get d = some b := by
  induction calls with
  | nil => intro m d b h; exact h
  | cons call rest ih =>
    intro m d b h
    exact ih _ d b (getRateLimiter_keeps m call.1 d call.2.1 call.2.2 b h)

/-- One call of `RecordWorkflowExecutionClosed`, by the answer of the limiter. -/
theorem RecordWorkflowExecutionClosed_step (env : SamplingEnv)
    (p : visibilitySamplingClient) (request : RecordWorkflowExecutionClosedRequest) :
    (RecordWorkflowExecutionClosed env p request).2.rateLimitersForOpen =
      p.rateLimitersForOpen ∧
    (RecordWorkflowExecutionClosed env p request).2.rateLimitersForClosed =
      (getRateLimiter p.rateLimitersForClosed request.Domain numOfPriorityForClosed
        (env.VisibilityClosedMaxQPS request.Domain)).2 ∧
    (RecordWorkflowExecutionClosed env p request).2.tokenRequests =
      p.tokenRequests ++ [TokenRequest.mk
        (getRateLimiter p.rateLimitersForClosed request.Domain numOfPriorityForClosed
          (env.VisibilityClosedMaxQPS request.Domain)).1 (getRequestPriority request) 1] := by
  cases h : closedAdmission env p request with
  | true => rw [RecordWorkflowExecutionClosed_admitted env p request h]; simp
  | false => rw [RecordWorkflowExecutionClosed_denied env p request h]; simp

/-- C11: on a class's map, `getRateLimiter(domain, ...)` makes a limiter
exactly when the map has none for `domain`, and then stores it; it returns the
stored one otherwise; other tenants' entries stay as they are; and after any
further `getRateLimiter` calls on that map, a call for `domain`, with whatever
arguments, returns the identical limiter and makes none.  An open-class write
leaves the closed-class map as it is, takes its limiter from the open-class
map and asks that limiter for the token; a closed-class write does the same
with the classes exchanged. -/
theorem limiter_keyed_by_tenant_and_class :
    (∀ (m : domainToBucketMap) (domain : String) (n q : Int),
      (getRateLimiter m domain n q).2.bucketsMade =
        (if (m.mappings.get domain).isNone
          then m.bucketsMade ++ [(getRateLimiter m domain n q).1] else m.bucketsMade) ∧
      (∀ b, m.mappings.get domain = some b → getRateLimiter m domain n q = (b, m)) ∧
      (getRateLimiter m domain n q).2.mappings.get domain =
        some (getRateLimiter m domain n q).1 ∧
      (∀ other, other ≠ domain →
        (getRateLimiter m domain n q).2.mappings.get other = m.mappings.get other) ∧
      (∀ (calls : List (String × Int × Int)) (n' q' : Int),
        getRateLimiter (getRateLimiters (getRateLimiter m domain n q).2 calls) domain n' q' =
          ((getRateLimiter m domain n q).1,
            getRateLimiters (getRateLimiter m domain n q).2 calls))) ∧
    (∀ (env : SamplingEnv) (p : visibilitySamplingClient)
        (request : RecordWorkflowExecutionStartedRequest),
      (RecordWorkflowExecutionStarted env p request).2.rateLimitersForClosed =
        p.rateLimitersForClosed ∧
      (RecordWorkflowExecutionStarted env p request).2.rateLimitersForOpen =
        (getRateLimiter p.rateLimitersForOpen request.Domain numOfPriorityForOpen
          (env.VisibilityOpenMaxQPS request.Domain)).2 ∧
      (RecordWorkflowExecutionStarted env p request).2.tokenRequests =
        p.tokenRequests ++ [TokenRequest.mk
          (getRateLimiter p.rateLimitersForOpen request.Domain numOfPriorityForOpen
            (env.VisibilityOpenMaxQPS request.Domain)).1 0 1]) ∧
    (∀ (env : SamplingEnv) (p : visibilitySamplingClient)
        (request : RecordWorkflowExecutionClosedRequest),
      (RecordWorkflowExecutionClosed env p request).2.rateLimitersForOpen =
        p.rateLimitersForOpen ∧
      (RecordWorkflowExecutionClosed env p request).2.rateLimitersForClosed =
        (getRateLimiter p.rateLimitersForClosed request.Domain numOfPriorityForClosed
          (env.VisibilityClosedMaxQPS request.Domain)).2 ∧
      (RecordWorkflowExecutionClosed env p request).2.tokenRequests =
        p.tokenRequests ++ [TokenRequest.mk
          (getRateLimiter p.rateLimitersForClosed request.Domain numOfPriorityForClosed
            (env.VisibilityClosedMaxQPS request.Domain)).1 (getRequestPriority request) 1]) := by
  refine ⟨?_, ?_, ?_⟩
  · intro m domain n q
    refine ⟨?_, fun b hb => getRateLimiter_hit m domain n q b hb,
      getRateLimiter_cached m domain n q,
      fun other h => getRateLimiter_other m domain other n q h, ?_⟩
    · cases h : m.mappings.get domain with
      | some b => rw [getRateLimiter_hit m domain n q b h]; simp
      | none => rw [getRateLimiter_miss m domain n q h]; simp
    · intro calls n' q'
      exact getRateLimiter_hit _ domain n' q' _
        (getRateLimiters_keeps calls _ domain _ (getRateLimiter_cached m domain n q))
  · intro env p request
    obtain ⟨-, h1, h2, h3, -, -⟩ := RecordWorkflowExecutionStarted_step env p request
    exact ⟨h2, h1, h3⟩
  · intro env p request
    exact RecordWorkflowExecutionClosed_step env p request

/-- C20, as the code has it: when the map has no limiter for `domain`,
`getRateLimiter(domain, numOfPriority, qps)` returns a new limiter made with
exactly that count and that quota; when it has one, that limiter is returned
as it is, whatever count and quota are passed, and the map is unchanged. -/
theorem getRateLimiter_quota_of_first_call (m : domainToBucketMap) (domain : String)
    (numOfPriority qps : Int) :
    (m.mappings.get domain = none →
      (getRateLimiter m domain numOfPriority qps).1.numOfPriority = numOfPriority ∧
      (getRateLimiter m domain numOfPriority qps).1.qps = qps ∧
      (getRateLimiter m domain numOfPriority qps).2.bucketsMade =
        m.bucketsMade ++ [(getRateLimiter m domain numOfPriority qps).1]) ∧
    (∀ b, m.mappings.get domain = some b →
      getRateLimiter m domain numOfPriority qps = (b, m)) := by
  constructor
  · intro h
    rw [getRateLimiter_miss m domain numOfPriority qps h]
    exact ⟨rfl, rfl, rfl⟩
  · intro b h
    exact getRateLimiter_hit m domain numOfPriority qps b h

/-- C20, as stated, fails: the open-class map of the sample client holds for
`domainA` a limiter made with the quota 300; a call with the quota 500 returns
that limiter, whose quota is 300, and an open-class write made when the
configured quota is 500 asks that limiter. -/
theorem getRateLimiter_returns_stale_quota :
    sampleSamplingClient.rateLimitersForOpen.mappings.get "domainA" =
      some { serial := 0, numOfPriority := 1, qps := 300 } ∧
    (getRateLimiter sampleSamplingClient.rateLimitersForOpen "domainA"
      numOfPriorityForOpen 500).1.qps = 300 ∧
    (getRateLimiter sampleSamplingClient.rateLimitersForOpen "domainA"
      numOfPriorityForOpen 500).1.qps ≠ 500 ∧
    ((RecordWorkflowExecutionStarted
      { sampleSamplingEnv with VisibilityOpenMaxQPS := fun _ => 500 }
      sampleSamplingClient (sampleStarted "wf-1")).2.tokenRequests.map
        (fun t => t.rateLimiter.qps)) = [300, 300] := by
  decide

/-! ## Routing, timeout, keys and limiter maps: the claims at sample inputs -/

/-- A malformed token, and the workflow ID `wf-12` and the shard 2, whose
shards have no known owner: each error comes back without a call. -/
theorem failures_before_loop_are_terminal_witness :
    dispatch sampleRoutingEnv 0 NewDispatcher none (.RespondDecisionTaskCompleted [])
        sampleOkOp =
      some { outcome := .returned (some (.other "malformed token")), calls := [],
             dispatcher := NewDispatcher } ∧
    (∃ res, dispatch sampleRoutingEnv 0 NewDispatcher none (.SyncShardStatus 2) sampleOkOp =
        some res ∧
      res.outcome = .returned (some (.other "no hosts for key")) ∧ res.calls = [] ∧
      res.dispatcher.c = NewDispatcher.c ∧
      res.dispatcher.lookupKeys = NewDispatcher.lookupKeys ++ [stringOfInt 2]) ∧
    dispatch sampleRoutingEnv 0 NewDispatcher none (.GetMutableState "wf-12") sampleOkOp =
      some { outcome := .returned (some (.other "no hosts for key")), calls := [],
             dispatcher :=
               { c := NewDispatcher.c,
                 lookupKeys := NewDispatcher.lookupKeys ++ [stringOfInt
                   (WorkflowIDToHistoryShard sampleRoutingEnv.hash "wf-12"
                     sampleRoutingEnv.numberOfShards)],
                 hashedIDs := NewDispatcher.hashedIDs ++ ["wf-12"] } } :=
  ⟨(failures_before_loop_are_terminal sampleRoutingEnv 0 NewDispatcher none sampleOkOp
      (.other "malformed token")).1 [] _ rfl (by decide),
   (failures_before_loop_are_terminal sampleRoutingEnv 0 NewDispatcher none sampleOkOp
      (.other "no hosts for key")).2.1 (.SyncShardStatus 2) (stringOfInt 2) (by decide) rfl,
   (failures_before_loop_are_terminal sampleRoutingEnv 0 NewDispatcher none sampleOkOp
      (.other "no hosts for key")).2.2 "wf-12" _ (by decide) rfl⟩

/-- A parent with 10 seconds left keeps its deadline; the call is made at time 0. -/
theorem createContext_deadline_witness :
    (createContext 0 (some { Deadline := some (10 * Second) })).Deadline =
      some (min (10 * Second) (0 + 30 * Second)) ∧
    (10 * Second : Int) ≤ 10 * Second :=
  ⟨(createContext_deadline 0).1 (10 * Second),
   (createContext_deadline 0).2.2.2 (10 * Second) (10 * Second) (by decide)⟩

/-- The shard of `wf-1` among 4 is in range, and two `getHostForRequest` calls
for `wf-1`, with calls for `wf-12` and `wf-2` in between, return one handle,
the cached handle of `hostA:7934`. -/
theorem same_key_same_shard_same_handle_witness :
    (0 ≤ WorkflowIDToHistoryShard sampleRoutingEnv.hash "wf-1" 4 ∧
      WorkflowIDToHistoryShard sampleRoutingEnv.hash "wf-1" 4 < 4) ∧
    (getHostForRequest sampleRoutingEnv NewDispatcher "wf-1").1 = .ok sampleHandle ∧
    (getHostForRequest sampleRoutingEnv
      (getHostsForRequests sampleRoutingEnv
        (getHostForRequest sampleRoutingEnv NewDispatcher "wf-1").2 ["wf-12", "wf-2"])
      "wf-1").1 = .ok sampleHandle ∧
    (getHostForRequest sampleRoutingEnv
      (getHostsForRequests sampleRoutingEnv
        (getHostForRequest sampleRoutingEnv NewDispatcher "wf-1").2 ["wf-12", "wf-2"])
      "wf-1").2.c.thriftCache.get "hostA:7934" = some sampleHandle :=
  ⟨same_key_same_shard_same_handle.1 sampleRoutingEnv.hash "wf-1" 4 (by decide),
   congrArg Prod.fst
     (same_key_same_shard_same_handle.2.2.2 sampleRoutingEnv NewDispatcher "wf-1"
       "hostA:7934" ["wf-12", "wf-2"] (fun _ => rfl)).1,
   (same_key_same_shard_same_handle.2.2.2 sampleRoutingEnv NewDispatcher "wf-1" "hostA:7934"
     ["wf-12", "wf-2"] (fun _ => rfl)).2.2.1,
   (same_key_same_shard_same_handle.2.2.2 sampleRoutingEnv NewDispatcher "wf-1" "hostA:7934"
     ["wf-12", "wf-2"] (fun _ => rfl)).2.2.2.1⟩

/-- `StartWorkflowExecution` for `wf-1` with two redirects by a callee that
answers by the host called: three calls, one resolver lookup, one shard
computation, and cache lookups of the two owners; `SyncActivity` for `wf-1`
makes its one lookup too, of `wf-1`. -/
theorem resolver_consulted_before_loop_only_witness :
    resolveHost sampleRoutingEnv NewDispatcher (.StartWorkflowExecution "wf-1") =
      .resolved sampleHandle sampleDispatcher ∧
    (resolveHost sampleRoutingEnv NewDispatcher (.StartWorkflowExecution "wf-1")
      ).dispatcher.lookupKeys = NewDispatcher.lookupKeys ++ [stringOfInt
        (WorkflowIDToHistoryShard sampleRoutingEnv.hash "wf-1"
          sampleRoutingEnv.numberOfShards)] ∧
    (resolveHost sampleRoutingEnv NewDispatcher (.SyncActivity "wf-1")).dispatcher.lookupKeys =
      NewDispatcher.lookupKeys ++ ["wf-1"] ∧
    dispatch sampleRoutingEnv 3 NewDispatcher none (.StartWorkflowExecution "wf-1")
        sampleHostOp =
      some { outcome := .returned none,
             calls := (List.range (2 + 1)).map
               (fun i => (heldAt sampleDispatcher.c sampleHandle sampleOwners i).1),
             dispatcher :=
               { c := (heldAt sampleDispatcher.c sampleHandle sampleOwners 2).2,
                 lookupKeys := sampleDispatcher.lookupKeys,
                 hashedIDs := sampleDispatcher.hashedIDs } } ∧
    (heldAt sampleDispatcher.c sampleHandle sampleOwners 2).2.cacheLookups =
      sampleDispatcher.c.cacheLookups ++ (List.range 2).map (fun i => sampleOwners (i + 1)) :=
  ⟨by decide,
   ((resolver_consulted_before_loop_only.2.1 sampleRoutingEnv NewDispatcher).1 "wf-1"
     (.StartWorkflowExecution "wf-1") (by decide)).1.1,
   ((resolver_consulted_before_loop_only.2.1 sampleRoutingEnv NewDispatcher).2.2.2.1
     "wf-1").1.1,
   (resolver_consulted_before_loop_only.2.2.2.2 2 sampleOwners sampleRoutingEnv 3
     NewDispatcher none (.StartWorkflowExecution "wf-1") sampleHostOp sampleHandle
     sampleDispatcher (by decide) (by decide) (by decide) (fun _ _ => rfl)
     (fun i hi => by
       have h2 : i < 2 := hi
       interval_cases i <;> decide)
     (by decide)).1,
   (resolver_consulted_before_loop_only.2.2.2.2 2 sampleOwners sampleRoutingEnv 3
     NewDispatcher none (.StartWorkflowExecution "wf-1") sampleHostOp sampleHandle
     sampleDispatcher (by decide) (by decide) (by decide) (fun _ _ => rfl)
     (fun i hi => by
       have h2 : i < 2 := hi
       interval_cases i <;> decide)
     (by decide)).2.2⟩

/-- A request naming `hostB:7934` (and a shard, and an execution) goes to that
host without a lookup; a request naming shard 3, which has no owner, fails. -/
theorem DescribeHistoryHost_target_precedence_witness :
    resolveHost sampleRoutingEnv sampleDispatcher (.DescribeHistoryHost sampleDescribeByHost) =
      .resolved (getThriftClient sampleDispatcher.c "hostB:7934").1
        { c := (getThriftClient sampleDispatcher.c "hostB:7934").2,
          lookupKeys := sampleDispatcher.lookupKeys,
          hashedIDs := sampleDispatcher.hashedIDs } ∧
    (resolveHost sampleRoutingEnv sampleDispatcher
      (.DescribeHistoryHost (sampleDescribeByShard 0))).dispatcher.hashedIDs =
        sampleDispatcher.hashedIDs ∧
    (resolveHost sampleRoutingEnv sampleDispatcher
      (.DescribeHistoryHost sampleDescribeByExecution)).dispatcher.hashedIDs =
        sampleDispatcher.hashedIDs ++ ["wf-1"] ∧
    dispatch sampleRoutingEnv 0 sampleDispatcher none
        (.DescribeHistoryHost (sampleDescribeByShard 3)) sampleOkOp =
      some { outcome := .returned (some (.other "no hosts for key")), calls := [],
             dispatcher :=
               { (resolveHost sampleRoutingEnv sampleDispatcher
                   (.DescribeHistoryHost (sampleDescribeByShard 3))).dispatcher with
                 c := sampleDispatcher.c } } :=
  ⟨(DescribeHistoryHost_target_precedence sampleRoutingEnv sampleDispatcher
      sampleDescribeByHost).1 "hostB:7934" rfl,
   ((DescribeHistoryHost_target_precedence sampleRoutingEnv sampleDispatcher
      (sampleDescribeByShard 0)).2.1 0 rfl rfl).2,
   ((DescribeHistoryHost_target_precedence sampleRoutingEnv sampleDispatcher
      sampleDescribeByExecution).2.2.1 { WorkflowId := some "wf-1", RunId := none } "wf-1"
      rfl rfl rfl rfl).2,
   (DescribeHistoryHost_target_precedence sampleRoutingEnv sampleDispatcher
      (sampleDescribeByShard 3)).2.2.2 0 none sampleOkOp (stringOfInt 3)
      (.other "no hosts for key") (by decide) rfl⟩

/-- Among 4 shards, the keys of shard 1 and shard 2 differ. -/
theorem shard_keys_distinct_iff_witness :
    (4 : Int) ≤ 55297 ∧ stringOfInt 1 ≠ stringOfInt 2 :=
  ⟨by decide,
   (shard_keys_distinct_iff 4).2 (by decide) 1 2 (by decide) (by decide) (by decide)
     (by decide) (by decide)⟩

/-- On the open-class map of the sample client: `domainB` gets a new limiter,
`domainA` keeps its limiter after a call for `domainB`, and an open-class
write leaves the closed-class map alone. -/
theorem limiter_keyed_by_tenant_and_class_witness :
    getRateLimiter sampleSamplingClient.rateLimitersForOpen "domainA" 1 500 =
      ({ serial := 0, numOfPriority := 1, qps := 300 },
        sampleSamplingClient.rateLimitersForOpen) ∧
    (getRateLimiter sampleSamplingClient.rateLimitersForOpen "domainB" 1 500).2.mappings.get
        "domainA" = sampleSamplingClient.rateLimitersForOpen.mappings.get "domainA" ∧
    (RecordWorkflowExecutionStarted sampleSamplingEnv sampleSamplingClient
      (sampleStarted "wf-1")).2.rateLimitersForClosed =
        sampleSamplingClient.rateLimitersForClosed :=
  ⟨(limiter_keyed_by_tenant_and_class.1 sampleSamplingClient.rateLimitersForOpen "domainA"
      1 500).2.1 _ (by decide),
   (limiter_keyed_by_tenant_and_class.1 sampleSamplingClient.rateLimitersForOpen "domainB"
      1 500).2.2.2.1 "domainA" (by decide),
   (limiter_keyed_by_tenant_and_class.2.1 sampleSamplingEnv sampleSamplingClient
      (sampleStarted "wf-1")).1⟩

/-- On the open-class map of the sample client: `domainB`, which is absent,
gets a limiter with the quota passed, 500; `domainA` keeps the one it has. -/
theorem getRateLimiter_quota_of_first_call_witness :
    sampleSamplingClient.rateLimitersForOpen.mappings.get "domainB" = none ∧
    (getRateLimiter sampleSamplingClient.rateLimitersForOpen "domainB" 1 500).1.qps = 500 ∧
    getRateLimiter sampleSamplingClient.rateLimitersForOpen "domainA" 1 500 =
      ({ serial := 0, numOfPriority := 1, qps := 300 },
        sampleSamplingClient.rateLimitersForOpen) :=
  ⟨by decide,
   ((getRateLimiter_quota_of_first_call sampleSamplingClient.rateLimitersForOpen "domainB"
      1 500).1 (by decide)).2.1,
   (getRateLimiter_quota_of_first_call sampleSamplingClient.rateLimitersForOpen "domainA"
      1 500).2 _ (by decide)⟩

/-! ## Loading a schema: claims -/

/-- What `loadDatabaseSchema` returns depends on the reads only: it is nil
exactly when every listed file can be read, whatever `db.Exec` answers. -/
theorem loadSchemaFiles_nil_iff (env : SchemaEnv) (dir : String) (fileNames : List String) :
    ∀ (executed : List String) (assigned : List Error),
      (loadSchemaFiles env dir fileNames executed assigned).err = none ↔
        ∀ file ∈ fileNames, ∃ content, env.ReadFile (dir ++ "/" ++ file) = .ok content := by
  induction fileNames with
  | nil => intro executed assigned; simp [loadSchemaFiles]
  | cons file rest ih =>
    intro executed assigned
    cases hr : env.ReadFile (dir ++ "/" ++ file) with
    | error e =>
      simp only [loadSchemaFiles, hr, List.mem_cons, forall_eq_or_imp]
      constructor
      · intro h; cases h
      · rintro ⟨⟨content, hc⟩, -⟩; cases hc
    | ok content =>
      have hrest : (loadSchemaFiles env dir (file :: rest) executed assigned).err = none ↔
          ∀ f ∈ rest, ∃ c, env.ReadFile (dir ++ "/" ++ f) = .ok c := by
        cases he : env.Exec executed.length content with
        | some e => simp only [loadSchemaFiles, hr, he]; exact ih _ _
        | none => simp only [loadSchemaFiles, hr, he]; exact ih _ _
      rw [hrest]
      simp only [List.mem_cons, forall_eq_or_imp]
      constructor
      · intro h; exact ⟨⟨content, hr⟩, h⟩
      · intro h; exact h.2

/-- C21: with one listed file that is read and whose statement the database
rejects, `loadDatabaseSchema` executes the statement, assigns the wrapped error
to the variable of the loop body and returns nil; a file that cannot be read
gives a non-nil error. -/
theorem loadDatabaseSchema_drops_exec_error :
    loadDatabaseSchema sampleSchemaEnv "schema" ["schema.sql"] false =
      { err := none,
        executed := ["CREATE TABLE executions (shard_id INT)"],
        assigned := [.other
          "error loading schema from schema.sql: Error 1050: Table executions already exists"] } ∧
    loadDatabaseSchema sampleSchemaEnv "schema" ["missing.sql"] false =
      { err := some (.other
          "error reading contents of file missing.sql:no such file or directory"),
        executed := [], assigned := [] } := by
  decide

end Cadence
